import Mathlib

/-! # sqdb: a reference-counted handle layer over the SQLite C interface

A shallow embedding of `src/sqdb.cpp` and `src/trunk/sqdb.h`.

* Pointers are natural numbers.  A `unsigned*` is `Option Nat` (`none` is `NULL`), an address
  into the heap of counter cells.  `sqlite3*`, `sqlite3_stmt*` and `char*` are `Nat`, `0` being
  `NULL` where the code tests for it.
* `unsigned` is a natural number reduced modulo `UINT_MOD = 2 ^ 32`; a `size_t` passed where an
  `int` is expected is reduced to the 32-bit two's complement range (`toCInt`).
* C++ objects live in a list; the index of an object is its identity (`this`), so that the test
  `this != &x` is a comparison of indices.
* The engine (SQLite) is an external collaborator.  The status an engine call returns is an
  argument of the embedded function, and `Engine` carries what the engine answers when it is
  asked for its error message or for the bytes of a column.
* A call either returns, throws an `Exception`, or stops the program (`Fault`).
-/

namespace sqdb

/-! ## Outcomes -/

/-- `Exception` of `sqdb.h`: the fields `m_errorCode` and `m_errorMsg`. -/
structure Exception where
  m_errorCode : Int
  m_errorMsg : String
deriving DecidableEq, Repr

/-- Ways in which a call stops the program instead of returning or throwing. -/
inductive Fault where
  /-- an `assert(...)` failed -/
  | assertion
  /-- control reached the end of a function with a non-void return type -/
  | noReturn
  /-- a deleted or never allocated cell was read, written or deleted -/
  | badPointer
  /-- `new char[size]` with a negative `size` -/
  | badArrayLength
  /-- the calling program named an object outside its lifetime -/
  | deadObject
deriving DecidableEq, Repr

/-- Result of a call: normal return, a thrown `Exception`, or a fault. -/
inductive Outcome (α : Type) where
  | ok (a : α)
  | threw (e : Exception)
  | abort (f : Fault)
deriving DecidableEq, Repr

/-! ## `RefCount` (sqdb.cpp 44-83) -/

/-- `unsigned` arithmetic is modulo `2 ^ 32`. -/
def UINT_MOD : Nat := 4294967296

/-- The heap of `unsigned` cells made by `new unsigned`: the address is the index, `none` is a
cell that has been deleted.  Addresses are never handed out twice. -/
abbrev Counters := List (Option Nat)

/-- The data member `unsigned* m_refCount` of class `RefCount`. -/
structure RefCount where
  m_refCount : Option Nat
deriving DecidableEq, Repr

/-- `RefCount::RefCount()`: `m_refCount(NULL)`. -/
def RefCount.ctor : RefCount := ⟨none⟩

/-- `RefCount::RefCount(const RefCount& x)`: `m_refCount(x.m_refCount)`. -/
def RefCount.copyCtor (x : RefCount) : RefCount := ⟨x.m_refCount⟩

/-- `RefCount::operator=` when `this != &x`: `m_refCount = x.m_refCount`. -/
def RefCount.assign (_self x : RefCount) : RefCount := ⟨x.m_refCount⟩

/-- `++*p` on the cell at address `a`. -/
def Counters.preIncr (cs : Counters) (a : Nat) : Outcome Counters :=
  match cs[a]? with
  | some (some v) => .ok (cs.set a (some ((v + 1) % UINT_MOD)))
  | _ => .abort .badPointer

/-- `RefCount::IncRef()`:
```
if ( !m_refCount ) { m_refCount = new unsigned; *m_refCount = 0; }
++*m_refCount;
```
-/
def RefCount.IncRef (cs : Counters) (r : RefCount) : Outcome (Counters × RefCount) :=
  let (cs1, a) :=
    match r.m_refCount with
    | none => (cs ++ [some 0], cs.length)
    | some a => (cs, a)
  match Counters.preIncr cs1 a with
  | .ok cs2 => .ok (cs2, ⟨some a⟩)
  | .threw e => .threw e
  | .abort f => .abort f

/-- `RefCount::DecRef()`:
```
assert(m_refCount);
unsigned value = --*m_refCount;
if ( value == 0 ) { delete m_refCount; m_refCount = NULL; }
return value;
```
The result is the heap, the object afterwards and the returned `value`. -/
def RefCount.DecRef (cs : Counters) (r : RefCount) : Outcome (Counters × RefCount × Nat) :=
  match r.m_refCount with
  | none => .abort .assertion
  | some a =>
    match cs[a]? with
    | some (some v) =>
      let value := (v + UINT_MOD - 1) % UINT_MOD
      let cs1 := cs.set a (some value)
      if value = 0 then .ok (cs1.set a none, ⟨none⟩, value)
      else .ok (cs1, ⟨some a⟩, value)
    | _ => .abort .badPointer

/-- What a holder of `r` reads through `*m_refCount`. -/
def RefCount.value (cs : Counters) (r : RefCount) : Option Nat :=
  match r.m_refCount with
  | none => none
  | some a =>
    match cs[a]? with
    | some (some v) => some v
    | _ => none

/-! ## Lifetime of handles (Blob 93-127, Statement 202-225 and 251-257, Db 400-425)

`operator=` and the destructor of the three handle classes have the same text up to the name of
the native reference (`m_stmt`, `m_db`, `m_data`) and of the release call.  The copy
constructors differ in their initialiser lists: `Statement` and `Db` name the base `RefCount(x)`,
`Blob` does not, so that its base is default-constructed.  `Handle` keeps the `RefCount` base and
the native reference. -/

/-- Which handle class. -/
inductive Kind where
  | statement
  | db
  | blob
deriving DecidableEq, Repr

/-- A release call on a native resource. -/
inductive Release where
  | sqlite3_finalize (stmt : Nat)
  | sqlite3_close (db : Nat)
  | deleteArr (data : Nat)
deriving DecidableEq, Repr

/-- The release call the destructor of each class makes. -/
def Kind.release : Kind → Nat → Release
  | .statement, r => .sqlite3_finalize r
  | .db, r => .sqlite3_close r
  | .blob, r => .deleteArr r

/-- The resource a release call names. -/
def Release.target : Release → Nat
  | .sqlite3_finalize r => r
  | .sqlite3_close r => r
  | .deleteArr r => r

/-- A handle object: the `RefCount` base and the native reference. -/
structure Handle where
  m_refCount : Option Nat
  m_res : Nat
deriving DecidableEq, Repr

/-- State of a program that creates, copies, assigns and destroys handles of one kind. -/
structure World where
  /-- heap of counter cells -/
  counters : Counters
  /-- the objects created so far, `none` once destroyed -/
  objs : List (Option Handle)
  /-- number of native resources acquired; the next one gets this number -/
  acquired : Nat
  /-- release calls made, oldest first -/
  released : List Release
deriving DecidableEq, Repr

/-- The empty program state. -/
def World.init : World := ⟨[], [], 0, []⟩

/-- Operations of the calling program; objects are named by index. -/
inductive Op where
  /-- construct a handle on a newly acquired native resource -/
  | construct
  /-- copy-construct a new object from object `src` -/
  | copy (src : Nat)
  /-- `dst = src` -/
  | assign (dst src : Nat)
  /-- run the destructor of object `i` -/
  | destroy (i : Nat)
deriving DecidableEq, Repr

/-- Whether the operation is a copy construction. -/
def Op.isCopy : Op → Bool
  | .copy _ => true
  | _ => false

/-- Whether the operation is the copy construction of a `Blob`. -/
def Op.isBlobCopy (k : Kind) (op : Op) : Bool :=
  k == Kind.blob && op.isCopy

/-- Constructor from a new native resource (`Blob(data, size)`, `Statement(db, stmt)` as called by
`Db::Query`, `Db(fileName)` when the open succeeds): base `RefCount()`, then `IncRef()`. -/
def Handle.ctor (cs : Counters) (res : Nat) : Outcome (Counters × Handle) :=
  match RefCount.IncRef cs RefCount.ctor with
  | .ok (cs1, r) => .ok (cs1, ⟨r.m_refCount, res⟩)
  | .threw e => .threw e
  | .abort f => .abort f

/-- Base sub-object at the start of a copy constructor.
`Statement(const Statement& x) : RefCount(x), ...` and `Db(const Db& x) : RefCount(x), ...` copy
the base; `Blob(const Blob& x) : m_data(x.m_data), m_size(x.m_size)` has no initialiser for the
base, which is therefore built by `RefCount()`. -/
def Kind.copyBase : Kind → RefCount → RefCount
  | .statement, x => RefCount.copyCtor x
  | .db, x => RefCount.copyCtor x
  | .blob, _ => RefCount.ctor

/-- Copy constructor: the base as `Kind.copyBase` says, native reference copied, then
`IncRef()`. -/
def Handle.copyCtor (k : Kind) (cs : Counters) (x : Handle) : Outcome (Counters × Handle) :=
  match RefCount.IncRef cs (k.copyBase ⟨x.m_refCount⟩) with
  | .ok (cs1, r) => .ok (cs1, ⟨r.m_refCount, x.m_res⟩)
  | .threw e => .threw e
  | .abort f => .abort f

/-- Body of `operator=` when `this != &x`: `RefCount::operator=(x); IncRef();` and the native
reference copied. -/
def Handle.assign (cs : Counters) (self x : Handle) : Outcome (Counters × Handle) :=
  match RefCount.IncRef cs (RefCount.assign ⟨self.m_refCount⟩ ⟨x.m_refCount⟩) with
  | .ok (cs1, r) => .ok (cs1, ⟨r.m_refCount, x.m_res⟩)
  | .threw e => .threw e
  | .abort f => .abort f

/-- Destructor: `if ( DecRef() == 0 ) release(m_res);`.  The result is the heap and the release
calls made. -/
def Handle.dtor (k : Kind) (cs : Counters) (self : Handle) : Outcome (Counters × List Release) :=
  match RefCount.DecRef cs ⟨self.m_refCount⟩ with
  | .ok (cs1, _, value) => .ok (cs1, if value = 0 then [k.release self.m_res] else [])
  | .threw e => .threw e
  | .abort f => .abort f

/-- Object `i`, if it exists and is alive. -/
def World.live (w : World) (i : Nat) : Option Handle :=
  match w.objs[i]? with
  | some (some h) => some h
  | _ => none

/-- One operation of the calling program. -/
def step (k : Kind) (w : World) : Op → Outcome World
  | .construct =>
    match Handle.ctor w.counters w.acquired with
    | .ok (cs, h) => .ok ⟨cs, w.objs ++ [some h], w.acquired + 1, w.released⟩
    | .threw e => .threw e
    | .abort f => .abort f
  | .copy src =>
    match w.live src with
    | none => .abort .deadObject
    | some x =>
      match Handle.copyCtor k w.counters x with
      | .ok (cs, h) => .ok ⟨cs, w.objs ++ [some h], w.acquired, w.released⟩
      | .threw e => .threw e
      | .abort f => .abort f
  | .assign dst src =>
    match w.live dst, w.live src with
    | some self, some x =>
      if dst = src then .ok w
      else
        match Handle.assign w.counters self x with
        | .ok (cs, h) => .ok ⟨cs, w.objs.set dst (some h), w.acquired, w.released⟩
        | .threw e => .threw e
        | .abort f => .abort f
    | _, _ => .abort .deadObject
  | .destroy i =>
    match w.live i with
    | none => .abort .deadObject
    | some self =>
      match Handle.dtor k w.counters self with
      | .ok (cs, rel) => .ok ⟨cs, w.objs.set i none, w.acquired, w.released ++ rel⟩
      | .threw e => .threw e
      | .abort f => .abort f

/-- A sequence of operations, stopping at the first one that does not return. -/
def runFrom (k : Kind) (w : World) : List Op → Outcome World
  | [] => .ok w
  | op :: ops =>
    match step k w op with
    | .ok w1 => runFrom k w1 ops
    | .threw e => .threw e
    | .abort f => .abort f

/-- A program run from the empty state. -/
def run (k : Kind) (ops : List Op) : Outcome World := runFrom k World.init ops

/-- Whether the object slot `o` is a live handle whose counter pointer is `c`. -/
def holds (c : Nat) (o : Option Handle) : Bool :=
  match o with
  | some h => h.m_refCount == some c
  | none => false

/-- Number of live objects in `objs` whose counter pointer is `c`. -/
def sharersOf (objs : List (Option Handle)) (c : Nat) : Nat :=
  objs.countP (holds c)

/-- Number of live objects of the state whose counter pointer is `c`. -/
def World.sharers (w : World) (c : Nat) : Nat := sharersOf w.objs c


/-- Invariant of the lifetime machine after at most `n` operations: the counter heap and the
native resources are numbered alike, every live handle points at the allocated counter of its
own resource, every allocated counter is at least the number of live handles sharing it and at
most `n`, and the release calls made are those of the deleted counters, one each, through the
release call of kind `k`. -/
structure Sound (k : Kind) (w : World) (n : Nat) : Prop where
  acq : w.acquired = w.counters.length
  own : ∀ (i : Nat) (h : Handle), w.objs[i]? = some (some h) →
    h.m_refCount = some h.m_res ∧ ∃ v, w.counters[h.m_res]? = some (some v)
  cnt : ∀ (c v : Nat), w.counters[c]? = some (some v) → sharersOf w.objs c ≤ v ∧ v ≤ n
  rel : ∀ r ∈ w.released, w.counters[r.target]? = some none ∧ r = k.release r.target
  nodup : (w.released.map Release.target).Nodup

/-- The call returned a value satisfying `P`, or it stopped for the one reason that is the calling
program's own: it named an object outside its lifetime. -/
def Outcome.Reaches {α : Type} (P : α → Prop) : Outcome α → Prop
  | .ok a => P a
  | .threw _ => False
  | .abort f => f = Fault.deadObject

/-- No premature and no double release in state `w`: every live handle holds a counter that is
allocated, is at least the number of live handles sharing it and is not `0`; no release call made
so far names the native resource of a live handle; no native resource was released twice. -/
def World.Safe (w : World) : Prop :=
  (∀ (i : Nat) (h : Handle), w.live i = some h →
    ∃ c v, h.m_refCount = some c ∧ w.counters[c]? = some (some v) ∧ w.sharers c ≤ v ∧ 0 < v) ∧
  (∀ (i : Nat) (h : Handle), w.live i = some h → ∀ r ∈ w.released, r.target ≠ h.m_res) ∧
  (w.released.map Release.target).Nodup

/-! ## The engine interface (`sqlite3.h`, not part of the repository) -/

/-- `SQLITE_OK` of `sqlite3.h`. -/
def SQLITE_OK : Int := 0

/-- `SQLITE_ROW` of `sqlite3.h`: `sqlite3_step` has another row ready. -/
def SQLITE_ROW : Int := 100

/-- `SQLITE_DONE` of `sqlite3.h`: `sqlite3_step` has finished executing. -/
def SQLITE_DONE : Int := 101

/-- What the engine answers at one moment when asked for its error message or for a column of
the current row. -/
structure Engine where
  /-- `sqlite3_errmsg(db)` -/
  errmsg : Nat → String
  /-- `sqlite3_column_blob(stmt, field)`: address of the bytes of the column -/
  column_blob : Nat → Int → Nat
  /-- `sqlite3_column_bytes(stmt, field)` -/
  column_bytes : Nat → Int → Int

/-- An engine with empty messages and empty columns. -/
def Engine.quiet : Engine := ⟨fun _ => "", fun _ _ => 0, fun _ _ => 0⟩

/-- Native calls made on a statement.  A `double` is carried by its bit pattern and text by its
bytes; the values play no part in the control flow of this layer. -/
inductive Call where
  | sqlite3_step (stmt : Nat)
  | sqlite3_reset (stmt : Nat)
  | sqlite3_bind_int (stmt : Nat) (i : Int) (value : Int)
  | sqlite3_bind_int64 (stmt : Nat) (i : Int) (value : Int)
  | sqlite3_bind_double (stmt : Nat) (i : Int) (value : Nat)
  | sqlite3_bind_text (stmt : Nat) (i : Int) (value : List Nat) (n : Int)
  | sqlite3_bind_blob (stmt : Nat) (i : Int) (value : Nat) (n : Int)
  | sqlite3_bind_null (stmt : Nat) (i : Int)
deriving DecidableEq, Repr

/-! ## `Exception` and `CHECK` (sqdb.cpp 11-42, sqdb.h 30-31) -/

/-- `Exception::Exception(sqlite3* db, int errorCode)`: `m_errorCode(errorCode)` and
`m_errorMsg = strdup(sqlite3_errmsg(db))`. -/
def Exception.ofStatus (E : Engine) (db : Nat) (errorCode : Int) : Exception :=
  ⟨errorCode, E.errmsg db⟩

/-- `Exception::Exception(const char* errorMsg)`: `m_errorCode(-1)`. -/
def Exception.ofMsg (errorMsg : String) : Exception := ⟨-1, errorMsg⟩

/-- `Exception::GetErrorCode()`. -/
def Exception.GetErrorCode (e : Exception) : Int := e.m_errorCode

/-- `Exception::GetErrorMsg()`. -/
def Exception.GetErrorMsg (e : Exception) : String := e.m_errorMsg

/-- The macro `CHECK(db, returnCode)`:
`if ( (returnCode) != SQLITE_OK ) throw Exception(db, returnCode)`. -/
def CHECK (E : Engine) (db : Nat) (returnCode : Int) : Outcome Unit :=
  if returnCode ≠ SQLITE_OK then .threw (Exception.ofStatus E db returnCode) else .ok ()

/-! ## `Statement` (sqdb.cpp 202-324, sqdb.h 91-134) -/

/-- Class `Statement`: the `RefCount` base and the members `m_db`, `m_stmt`, `m_needReset`. -/
structure Statement where
  m_refCount : Option Nat
  m_db : Nat
  m_stmt : Nat
  m_needReset : Bool
deriving DecidableEq, Repr

/-- Result of a member function of `Statement`: the object afterwards, the native calls made in
order, and how the call ended. -/
structure Res (α : Type) where
  self : Statement
  calls : List Call
  out : Outcome α

/-- Sequencing inside a member function: `f` runs only when the first part returned. -/
def Res.andThen {α : Type} (r : Res Unit) (f : Statement → Res α) : Res α :=
  match r.out with
  | .ok _ => ⟨(f r.self).self, r.calls ++ (f r.self).calls, (f r.self).out⟩
  | .threw e => ⟨r.self, r.calls, .threw e⟩
  | .abort g => ⟨r.self, r.calls, .abort g⟩

/-- `Statement::Statement(sqlite3* db, sqlite3_stmt* stmt)`:
`RefCount(), m_db(db), m_stmt(stmt), m_needReset(false)`, then `IncRef()`. -/
def Statement.ctor (cs : Counters) (db stmt : Nat) : Outcome (Counters × Statement) :=
  match RefCount.IncRef cs RefCount.ctor with
  | .ok (cs1, r) => .ok (cs1, ⟨r.m_refCount, db, stmt, false⟩)
  | .threw e => .threw e
  | .abort f => .abort f

/-- `Statement::Statement(const Statement& x)`:
`RefCount(x), m_db(x.m_db), m_stmt(x.m_stmt), m_needReset(false)`, then `IncRef()`. -/
def Statement.copyCtor (cs : Counters) (x : Statement) : Outcome (Counters × Statement) :=
  match RefCount.IncRef cs (RefCount.copyCtor ⟨x.m_refCount⟩) with
  | .ok (cs1, r) => .ok (cs1, ⟨r.m_refCount, x.m_db, x.m_stmt, false⟩)
  | .threw e => .threw e
  | .abort f => .abort f

/-- Body of `Statement::operator=` when `this != &x`: `RefCount::operator=(x); IncRef();
m_db = x.m_db; m_stmt = x.m_stmt; m_needReset = x.m_needReset;`. -/
def Statement.assign (cs : Counters) (self x : Statement) : Outcome (Counters × Statement) :=
  match RefCount.IncRef cs (RefCount.assign ⟨self.m_refCount⟩ ⟨x.m_refCount⟩) with
  | .ok (cs1, r) => .ok (cs1, ⟨r.m_refCount, x.m_db, x.m_stmt, x.m_needReset⟩)
  | .threw e => .threw e
  | .abort f => .abort f

/-- `Statement::Next()`, `ret` being what `sqlite3_step(m_stmt)` returns:
```
assert(m_stmt);
int ret = sqlite3_step(m_stmt);
m_needReset = true;
if ( ret == SQLITE_DONE ) { return false; }
else if ( ret == SQLITE_ROW ) { return true; }
else { CHECK(m_db, ret); }
```
After the `CHECK` there is no `return`. -/
def Statement.Next (E : Engine) (self : Statement) (ret : Int) : Res Bool :=
  if self.m_stmt = 0 then ⟨self, [], .abort .assertion⟩
  else
    let self1 : Statement := { self with m_needReset := true }
    let calls := [Call.sqlite3_step self.m_stmt]
    if ret = SQLITE_DONE then ⟨self1, calls, .ok false⟩
    else if ret = SQLITE_ROW then ⟨self1, calls, .ok true⟩
    else
      match CHECK E self.m_db ret with
      | .ok _ => ⟨self1, calls, .abort .noReturn⟩
      | .threw e => ⟨self1, calls, .threw e⟩
      | .abort f => ⟨self1, calls, .abort f⟩

/-- Class `Convertor`: the members `m_db`, `m_stmt`, `m_field`, as set by
`Convertor::Convertor(sqlite3* db, sqlite3_stmt* stmt, int field)`. -/
structure Convertor where
  m_db : Nat
  m_stmt : Nat
  m_field : Int
deriving DecidableEq, Repr

/-- `Statement::GetField(int field) const`: the object afterwards and
`Convertor(m_db, m_stmt, field)`. -/
def Statement.GetField (self : Statement) (field : Int) : Statement × Convertor :=
  (self, ⟨self.m_db, self.m_stmt, field⟩)

/-- `Statement::Reset()`:
```
assert(m_needReset);
assert(m_stmt);
sqlite3_reset(m_stmt);
m_needReset = false;
```
-/
def Statement.Reset (self : Statement) : Res Unit :=
  if self.m_needReset = false then ⟨self, [], .abort .assertion⟩
  else if self.m_stmt = 0 then ⟨self, [], .abort .assertion⟩
  else ⟨{ self with m_needReset := false }, [Call.sqlite3_reset self.m_stmt], .ok ()⟩

/-- The argument types `T` for which `Bind<T>` finds an overload of `DoBind(int, T)`. -/
inductive BindValue where
  | int (value : Int)
  | longLong (value : Int)
  | double (value : Nat)
  | string (value : List Nat)
  | cstr (value : List Nat)
deriving DecidableEq, Repr

/-- Conversion of a `size_t` to the `int` parameter of a native call: reduction modulo `2 ^ 32`
into the range from `-2 ^ 31` to `2 ^ 31 - 1`. -/
def toCInt (n : Nat) : Int :=
  ((n + 2147483648) % 4294967296 : Nat) - 2147483648

/-- The native bind call of each overload `DoBind(int i, T value)`; text is bound with its length
(`value.size()`, `strlen(value)`), which the `int` parameter of `sqlite3_bind_text` receives. -/
def BindValue.call (stmt : Nat) (i : Int) : BindValue → Call
  | .int v => .sqlite3_bind_int stmt i v
  | .longLong v => .sqlite3_bind_int64 stmt i v
  | .double v => .sqlite3_bind_double stmt i v
  | .string v => .sqlite3_bind_text stmt i v (toCInt v.length)
  | .cstr v => .sqlite3_bind_text stmt i v (toCInt v.length)

/-- `Statement::DoBind(int i, T value)` for the five value overloads:
`const int ret = sqlite3_bind_...(m_stmt, i, value ...); CHECK(m_db, ret);`. -/
def Statement.DoBind (E : Engine) (self : Statement) (i : Int) (value : BindValue) (ret : Int) :
    Res Unit :=
  ⟨self, [value.call self.m_stmt i], CHECK E self.m_db ret⟩

/-- `Statement::DoBind(int i, const void* value, int n)`:
`const int ret = sqlite3_bind_blob(m_stmt, i, value, n, SQLITE_TRANSIENT); CHECK(m_db, ret);`. -/
def Statement.DoBindBlob (E : Engine) (self : Statement) (i : Int) (value : Nat) (n : Int)
    (ret : Int) : Res Unit :=
  ⟨self, [Call.sqlite3_bind_blob self.m_stmt i value n], CHECK E self.m_db ret⟩

/-- `Statement::DoBind(int i)`: `const int ret = sqlite3_bind_null(m_stmt, i); CHECK(m_db, ret);`. -/
def Statement.DoBindNull (E : Engine) (self : Statement) (i : Int) (ret : Int) : Res Unit :=
  ⟨self, [Call.sqlite3_bind_null self.m_stmt i], CHECK E self.m_db ret⟩

/-- The statement `if ( m_needReset ) Reset();` that opens every bind. -/
def Statement.resetIfNeeded (self : Statement) : Res Unit :=
  if self.m_needReset then self.Reset else ⟨self, [], .ok ()⟩

/-- `Statement::Bind<T>(int i, const T& value)`: `if ( m_needReset ) Reset(); DoBind(i, value);`. -/
def Statement.Bind (E : Engine) (self : Statement) (i : Int) (value : BindValue) (ret : Int) :
    Res Unit :=
  self.resetIfNeeded.andThen (fun s => s.DoBind E i value ret)

/-- `Statement::BindBlob(int i, const void* value, int n)`:
`if ( m_needReset ) Reset(); DoBind(i, value, n);`. -/
def Statement.BindBlob (E : Engine) (self : Statement) (i : Int) (value : Nat) (n : Int)
    (ret : Int) : Res Unit :=
  self.resetIfNeeded.andThen (fun s => s.DoBindBlob E i value n ret)

/-- `Statement::BindNull(int i)`: `if ( m_needReset ) Reset(); DoBind(i);`. -/
def Statement.BindNull (E : Engine) (self : Statement) (i : Int) (ret : Int) : Res Unit :=
  self.resetIfNeeded.andThen (fun s => s.DoBindNull E i ret)

/-- Which of the three bind operations is called, with its arguments. -/
inductive BindArg where
  | value (v : BindValue)
  | blob (value : Nat) (n : Int)
  | null
deriving DecidableEq, Repr

/-- The native bind call a bind operation ends with. -/
def BindArg.call (stmt : Nat) (i : Int) : BindArg → Call
  | .value v => v.call stmt i
  | .blob p n => .sqlite3_bind_blob stmt i p n
  | .null => .sqlite3_bind_null stmt i

/-- A bind operation: `Bind<T>`, `BindBlob` or `BindNull`; `ret` is what the native bind call
returns. -/
def Statement.bind (E : Engine) (self : Statement) (i : Int) (arg : BindArg) (ret : Int) :
    Res Unit :=
  match arg with
  | .value v => self.Bind E i v ret
  | .blob p n => self.BindBlob E i p n ret
  | .null => self.BindNull E i ret

/-- `Statement::~Statement()`: `if ( DecRef() == 0 ) sqlite3_finalize(m_stmt);`. -/
def Statement.dtor (cs : Counters) (self : Statement) : Outcome (Counters × List Release) :=
  match RefCount.DecRef cs ⟨self.m_refCount⟩ with
  | .ok (cs1, _, value) => .ok (cs1, if value = 0 then [Release.sqlite3_finalize self.m_stmt] else [])
  | .threw e => .threw e
  | .abort f => .abort f

/-! ### Programs over Statement objects -/

/-- State of a program that uses Statement objects: the counter heap, the objects (named by
index), and the native calls made so far, oldest first. -/
structure SWorld where
  counters : Counters
  stmts : List Statement
  log : List Call
deriving DecidableEq, Repr

/-- Operations of such a program; `ret` is the status the engine returns to the native call the
operation makes.  A thrown `Exception` is caught by the program, which goes on. -/
inductive SOp where
  | copy (src : Nat)
  | assign (dst src : Nat)
  | next (i : Nat) (ret : Int)
  | bind (i : Nat) (pos : Int) (arg : BindArg) (ret : Int)
deriving DecidableEq, Repr

/-- Whether the operation is a copy construction. -/
def SOp.isCopy : SOp → Bool
  | .copy _ => true
  | _ => false

/-- The state after a member function ended with `r`, when the program can go on. -/
def SWorld.after {α : Type} (w : SWorld) (i : Nat) (r : Res α) : Outcome SWorld :=
  match r.out with
  | .abort f => .abort f
  | _ => .ok ⟨w.counters, w.stmts.set i r.self, w.log ++ r.calls⟩

/-- One operation. -/
def sstep (E : Engine) (w : SWorld) : SOp → Outcome SWorld
  | .copy src =>
    match w.stmts[src]? with
    | none => .abort .deadObject
    | some x =>
      match Statement.copyCtor w.counters x with
      | .ok (cs, s) => .ok ⟨cs, w.stmts ++ [s], w.log⟩
      | .threw e => .threw e
      | .abort f => .abort f
  | .assign dst src =>
    match w.stmts[dst]?, w.stmts[src]? with
    | some self, some x =>
      if dst = src then .ok w
      else
        match Statement.assign w.counters self x with
        | .ok (cs, s) => .ok ⟨cs, w.stmts.set dst s, w.log⟩
        | .threw e => .threw e
        | .abort f => .abort f
    | _, _ => .abort .deadObject
  | .next i ret =>
    match w.stmts[i]? with
    | none => .abort .deadObject
    | some self => w.after i (self.Next E ret)
  | .bind i pos arg ret =>
    match w.stmts[i]? with
    | none => .abort .deadObject
    | some self => w.after i (self.bind E pos arg ret)

/-- A sequence of operations. -/
def srunFrom (E : Engine) (w : SWorld) : List SOp → Outcome SWorld
  | [] => .ok w
  | op :: ops =>
    match sstep E w op with
    | .ok w1 => srunFrom E w1 ops
    | .threw e => .threw e
    | .abort f => .abort f

/-- A program that constructs one Statement from the compiled handle `stmt` of connection `db`
and then runs `ops`. -/
def srun (E : Engine) (db stmt : Nat) (ops : List SOp) : Outcome SWorld :=
  match Statement.ctor [] db stmt with
  | .ok (cs, s) => srunFrom E ⟨cs, [s], []⟩ ops
  | .threw e => .threw e
  | .abort f => .abort f

/-- Whether, in the log of native calls, the native statement `stmt` has been stepped at least
once since it was last reset, or since it was compiled if it was never reset. -/
def steppedSinceReset (log : List Call) (stmt : Nat) : Bool :=
  log.foldl (fun b c =>
    match c with
    | .sqlite3_step s => if s = stmt then true else b
    | .sqlite3_reset s => if s = stmt then false else b
    | _ => b) false

/-- The program holds exactly one Statement object, it refers to the native statement `stmt`,
its `m_needReset` says whether `stmt` has been stepped since its last reset, and a set flag
comes with a non-null `m_stmt`. -/
def SWorld.Single (stmt : Nat) (w : SWorld) : Prop :=
  ∃ st, w.stmts = [st] ∧ st.m_stmt = stmt ∧
    st.m_needReset = steppedSinceReset w.log stmt ∧ (st.m_needReset = true → stmt ≠ 0)

/-- Whether the operation assigns to object `i` from another object. -/
def SOp.assignsInto (i : Nat) : SOp → Bool
  | .assign dst src => dst == i && dst != src
  | _ => false

/-- Following the member calls made on object `i`: a `Next()` on it sets the mark, a bind on it
clears the mark, nothing else touches it. -/
def SOp.track (i : Nat) (p : Bool) : SOp → Bool
  | .next j _ => if j = i then true else p
  | .bind j _ _ _ => if j = i then false else p
  | _ => p

/-- Whether, in the program `ops`, `Next()` has been called on object `i` since its construction
or since the last bind on it.  A bind is where this layer resets: the bind that follows a
`Next()` makes the reset, and after a bind, with or without a reset, no `Next()` is left
unanswered; so this is whether `Next()` has been called on object `i` since its construction or
its last reset. -/
def nextPending (i : Nat) (ops : List SOp) : Bool :=
  ops.foldl (SOp.track i) false

/-- The flag of object `i`, if the object exists, is the mark `p`, a set flag comes with a
non-null `m_stmt`, and the mark of an object that does not exist yet is clear. -/
def SWorld.Tracks (i : Nat) (p : Bool) (w : SWorld) : Prop :=
  (∀ st, w.stmts[i]? = some st → st.m_needReset = p ∧ (p = true → st.m_stmt ≠ 0)) ∧
    (w.stmts.length ≤ i → p = false)

/-! ## `Db` (sqdb.cpp 351-425) -/

/-- Class `Db`: the `RefCount` base and the member `m_db`. -/
structure Db where
  m_refCount : Option Nat
  m_db : Nat
deriving DecidableEq, Repr

/-- `Db::Db(const char* fileName)`, where `sqlite3_open(fileName, &m_db)` returns `ret` and
stores `handle` in `m_db`:
```
const int ret = sqlite3_open(fileName, &m_db);
CHECK(m_db, ret);
IncRef();
```
-/
def Db.ctor (E : Engine) (cs : Counters) (ret : Int) (handle : Nat) : Outcome (Counters × Db) :=
  match CHECK E handle ret with
  | .ok _ =>
    match RefCount.IncRef cs RefCount.ctor with
    | .ok (cs1, r) => .ok (cs1, ⟨r.m_refCount, handle⟩)
    | .threw e => .threw e
    | .abort f => .abort f
  | .threw e => .threw e
  | .abort f => .abort f

/-- `Db::Query(const char* queryStr)`, where `sqlite3_prepare(m_db, queryStr, -1, &stmt, NULL)`
returns `ret` and stores `stmt`:
```
const int ret = sqlite3_prepare(m_db, queryStr, -1, &stmt, NULL);
CHECK(m_db, ret);
return Statement(m_db, stmt);
```
-/
def Db.Query (E : Engine) (cs : Counters) (self : Db) (ret : Int) (stmt : Nat) :
    Outcome (Counters × Statement) :=
  match CHECK E self.m_db ret with
  | .ok _ => Statement.ctor cs self.m_db stmt
  | .threw e => .threw e
  | .abort f => .abort f

/-! ## `Blob` (sqdb.cpp 85-127) and `Convertor::GetBlob` (sqdb.cpp 194-200) -/

/-- Memory holding `char` arrays: the address is the index, `none` is an array that has been
deleted.  It holds the arrays made by `new char[size]` and the memory of others (the bytes of
the caller, the row memory of the engine). -/
abbrev Mem := List (Option (List Nat))

/-- The two heaps a `Blob` lives in. -/
structure Heap where
  counters : Counters
  mem : Mem
deriving DecidableEq, Repr

/-- Class `Blob`: the `RefCount` base and the members `m_data`, `m_size`. -/
structure Blob where
  m_refCount : Option Nat
  m_data : Nat
  m_size : Int
deriving DecidableEq, Repr

/-- Reading `n` bytes from address `data`, as `std::uninitialized_copy(data, data + n, ...)` does;
nothing is read when `n = 0`. -/
def Mem.read (mem : Mem) (data : Nat) (n : Nat) : Option (List Nat) :=
  if n = 0 then some []
  else
    match mem[data]? with
    | some (some bytes) => if n ≤ bytes.length then some (bytes.take n) else none
    | _ => none

/-- `Blob::Blob(const void* data, int size)`:
```
: m_size(size)
m_data = new char[size];
std::uninitialized_copy((char*)data, (char*)data + size, m_data);
IncRef();
```
-/
def Blob.ctor (H : Heap) (data : Nat) (size : Int) : Outcome (Heap × Blob) :=
  if size < 0 then .abort .badArrayLength
  else
    match Mem.read H.mem data size.toNat with
    | none => .abort .badPointer
    | some bytes =>
      match RefCount.IncRef H.counters RefCount.ctor with
      | .ok (cs1, r) => .ok (⟨cs1, H.mem ++ [some bytes]⟩, ⟨r.m_refCount, H.mem.length, size⟩)
      | .threw e => .threw e
      | .abort f => .abort f

/-- `Blob::Blob(const Blob& x) : m_data(x.m_data), m_size(x.m_size)`, then `IncRef()`.  The
initialiser list does not name the base class, so the base is built by `RefCount()`. -/
def Blob.copyCtor (H : Heap) (x : Blob) : Outcome (Heap × Blob) :=
  match RefCount.IncRef H.counters RefCount.ctor with
  | .ok (cs1, r) => .ok (⟨cs1, H.mem⟩, ⟨r.m_refCount, x.m_data, x.m_size⟩)
  | .threw e => .threw e
  | .abort f => .abort f

/-- Body of `Blob::operator=` when `this != &x`: `RefCount::operator=(x); IncRef();
m_data = x.m_data; m_size = x.m_size;`. -/
def Blob.assign (H : Heap) (self x : Blob) : Outcome (Heap × Blob) :=
  match RefCount.IncRef H.counters (RefCount.assign ⟨self.m_refCount⟩ ⟨x.m_refCount⟩) with
  | .ok (cs1, r) => .ok (⟨cs1, H.mem⟩, ⟨r.m_refCount, x.m_data, x.m_size⟩)
  | .threw e => .threw e
  | .abort f => .abort f

/-- `Blob::GetSize()`. -/
def Blob.GetSize (self : Blob) : Int := self.m_size

/-- `Blob::GetData()`. -/
def Blob.GetData (self : Blob) : Nat := self.m_data

/-- The bytes seen through `GetData()[0 .. GetSize())`, if the array is still allocated. -/
def Blob.bytes (H : Heap) (self : Blob) : Option (List Nat) :=
  match H.mem[self.GetData]? with
  | some (some bytes) => some (bytes.take self.GetSize.toNat)
  | _ => none

/-- `delete[] p`. -/
def Mem.deleteArr (mem : Mem) (p : Nat) : Outcome Mem :=
  match mem[p]? with
  | some (some _) => .ok (mem.set p none)
  | _ => .abort .badPointer

/-- `Blob::~Blob()`: `if ( DecRef() == 0 ) delete[] m_data;`. -/
def Blob.dtor (H : Heap) (self : Blob) : Outcome Heap :=
  match RefCount.DecRef H.counters ⟨self.m_refCount⟩ with
  | .ok (cs1, _, value) =>
    if value = 0 then
      match Mem.deleteArr H.mem self.m_data with
      | .ok mem1 => .ok ⟨cs1, mem1⟩
      | .threw e => .threw e
      | .abort f => .abort f
    else .ok ⟨cs1, H.mem⟩
  | .threw e => .threw e
  | .abort f => .abort f

/-- `Convertor::GetBlob()`; the returned `Blob(data, size)` is built in place:
```
assert(m_stmt);
const void* data = sqlite3_column_blob(m_stmt, m_field);
int size = sqlite3_column_bytes(m_stmt, m_field);
return Blob(data, size);
```
-/
def Convertor.GetBlob (E : Engine) (H : Heap) (self : Convertor) : Outcome (Heap × Blob) :=
  if self.m_stmt = 0 then .abort .assertion
  else
    let data := E.column_blob self.m_stmt self.m_field
    let size := E.column_bytes self.m_stmt self.m_field
    Blob.ctor H data size

/-- `Db::Db(const Db& x) : RefCount(x), m_db(x.m_db)`, then `IncRef()`. -/
def Db.copyCtor (cs : Counters) (x : Db) : Outcome (Counters × Db) :=
  match RefCount.IncRef cs (RefCount.copyCtor ⟨x.m_refCount⟩) with
  | .ok (cs1, r) => .ok (cs1, ⟨r.m_refCount, x.m_db⟩)
  | .threw e => .threw e
  | .abort f => .abort f

/-- Body of `Db::operator=` when `this != &x`: `RefCount::operator=(x); IncRef();
m_db = x.m_db;`. -/
def Db.assign (cs : Counters) (self x : Db) : Outcome (Counters × Db) :=
  match RefCount.IncRef cs (RefCount.assign ⟨self.m_refCount⟩ ⟨x.m_refCount⟩) with
  | .ok (cs1, r) => .ok (cs1, ⟨r.m_refCount, x.m_db⟩)
  | .threw e => .threw e
  | .abort f => .abort f

/-- `Db::~Db()`: `if ( DecRef() == 0 ) sqlite3_close(m_db);`. -/
def Db.dtor (cs : Counters) (self : Db) : Outcome (Counters × List Release) :=
  match RefCount.DecRef cs ⟨self.m_refCount⟩ with
  | .ok (cs1, _, value) => .ok (cs1, if value = 0 then [Release.sqlite3_close self.m_db] else [])
  | .threw e => .threw e
  | .abort f => .abort f

/-! ## The three classes seen as `Handle` -/

/-- Applying a function to the value a call returned. -/
def Outcome.map {α β : Type} (f : α → β) : Outcome α → Outcome β
  | .ok a => .ok (f a)
  | .threw e => .threw e
  | .abort g => .abort g

/-- The lifetime part of a `Statement`: its counter pointer and `m_stmt`. -/
def Statement.toHandle (s : Statement) : Handle := ⟨s.m_refCount, s.m_stmt⟩

/-- The lifetime part of a `Db`: its counter pointer and `m_db`. -/
def Db.toHandle (d : Db) : Handle := ⟨d.m_refCount, d.m_db⟩

/-- The lifetime part of a `Blob`: its counter pointer and `m_data`. -/
def Blob.toHandle (b : Blob) : Handle := ⟨b.m_refCount, b.m_data⟩

/-! # Theorems -/

/-! ### Facts about `sharersOf` -/

theorem sharersOf_append_one (objs : List (Option Handle)) (o : Option Handle) (c : Nat) :
    sharersOf (objs ++ [o]) c = sharersOf objs c + (if holds c o then 1 else 0) := by
  simp [sharersOf, List.countP_append, List.countP_cons]

theorem sharersOf_set_le (objs : List (Option Handle)) (i : Nat) (o : Option Handle) (c : Nat) :
    sharersOf (objs.set i o) c ≤ sharersOf objs c + (if holds c o then 1 else 0) := by
  by_cases hi : i < objs.length
  · unfold sharersOf
    rw [List.countP_set _ _ _ _ hi]
    omega
  · rw [List.set_eq_of_length_le (by omega)]
    omega

theorem sharersOf_pos (objs : List (Option Handle)) (i : Nat) (h : Handle) (c : Nat)
    (hi : objs[i]? = some (some h)) (hc : h.m_refCount = some c) : 0 < sharersOf objs c := by
  unfold sharersOf
  rw [List.countP_pos_iff]
  exact ⟨some h, List.getElem?_mem hi, by simp [holds, hc]⟩

theorem sharersOf_set_none (objs : List (Option Handle)) (i : Nat) (h : Handle) (c : Nat)
    (hi : objs[i]? = some (some h)) (hc : h.m_refCount = some c) :
    sharersOf (objs.set i none) c + 1 = sharersOf objs c := by
  have hpos := sharersOf_pos objs i h c hi hc
  obtain ⟨hlt, hget⟩ := List.getElem?_eq_some.mp hi
  unfold sharersOf at *
  rw [List.countP_set _ _ _ _ hlt, hget]
  simp [holds, hc]
  omega

/-! ### Evaluation of `IncRef` and `DecRef` -/

theorem IncRef_null (cs : Counters) :
    RefCount.IncRef cs ⟨none⟩ = .ok (cs ++ [some 1], ⟨some cs.length⟩) := by
  simp [RefCount.IncRef, Counters.preIncr, UINT_MOD]

theorem IncRef_held (cs : Counters) (a v : Nat) (h : cs[a]? = some (some v)) :
    RefCount.IncRef cs ⟨some a⟩ = .ok (cs.set a (some ((v + 1) % UINT_MOD)), ⟨some a⟩) := by
  simp [RefCount.IncRef, Counters.preIncr, h]

theorem DecRef_held (cs : Counters) (a v : Nat) (h : cs[a]? = some (some v)) :
    RefCount.DecRef cs ⟨some a⟩ =
      if (v + UINT_MOD - 1) % UINT_MOD = 0 then .ok (cs.set a none, ⟨none⟩, 0)
      else .ok (cs.set a (some ((v + UINT_MOD - 1) % UINT_MOD)), ⟨some a⟩,
        (v + UINT_MOD - 1) % UINT_MOD) := by
  simp only [RefCount.DecRef, h]
  split <;> simp_all

/-! ### The invariant of the lifetime machine -/

theorem getElem?_append_one {α : Type} {l : List α} {a b : α} {i : Nat}
    (h : (l ++ [a])[i]? = some b) : l[i]? = some b ∨ (i = l.length ∧ a = b) := by
  rw [List.getElem?_append] at h
  split at h
  · exact Or.inl h
  · right
    rename_i hlt
    have hlen : i - l.length < [a].length := by
      by_contra hc
      rw [List.getElem?_eq_none (by omega)] at h
      exact Option.noConfusion h
    simp at hlen
    have hi : i = l.length := by omega
    subst hi
    simp at h
    exact ⟨rfl, h⟩

theorem lt_of_getElem?_eq_some {α : Type} {l : List α} {a : α} {i : Nat}
    (h : l[i]? = some a) : i < l.length :=
  (List.getElem?_eq_some.mp h).1

theorem Kind.target_release (k : Kind) (r : Nat) : (k.release r).target = r := by
  cases k <;> rfl

theorem Sound.no_sharers {k : Kind} {w : World} {n : Nat} (hI : Sound k w n) (c : Nat)
    (hc : ∀ v, w.counters[c]? ≠ some (some v)) : sharersOf w.objs c = 0 := by
  by_contra hne
  have hpos : 0 < sharersOf w.objs c := Nat.pos_of_ne_zero hne
  unfold sharersOf at hpos
  rw [List.countP_pos_iff] at hpos
  obtain ⟨o, hmem, hp⟩ := hpos
  obtain ⟨i, hi⟩ := List.mem_iff_getElem?.mp hmem
  cases o with
  | none => simp [holds] at hp
  | some h =>
    simp [holds] at hp
    obtain ⟨hown, v, hv⟩ := hI.own i h hi
    rw [hp] at hown
    injection hown with hown
    subst hown
    exact hc v hv

theorem Sound.mono {k : Kind} {w : World} {n m : Nat} (hI : Sound k w n) (hnm : n ≤ m) :
    Sound k w m :=
  ⟨hI.acq, hI.own, fun c v h => ⟨(hI.cnt c v h).1, le_trans (hI.cnt c v h).2 hnm⟩, hI.rel,
    hI.nodup⟩

theorem Sound.init (k : Kind) : Sound k World.init 0 := by
  refine ⟨rfl, ?_, ?_, ?_, ?_⟩ <;> simp [World.init]

theorem sound_construct {k : Kind} {w : World} {n : Nat} (hI : Sound k w n) :
    Sound k ⟨w.counters ++ [some 1], w.objs ++ [some ⟨some w.counters.length, w.acquired⟩],
      w.acquired + 1, w.released⟩ (n + 1) := by
  refine ⟨?_, ?_, ?_, ?_, hI.nodup⟩
  · simp [hI.acq]
  · intro i h hi
    rcases getElem?_append_one hi with hold | ⟨_, hnew⟩
    · obtain ⟨h1, v, hv⟩ := hI.own i h hold
      refine ⟨h1, v, ?_⟩
      show (w.counters ++ [some 1])[h.m_res]? = some (some v)
      rw [List.getElem?_append_left (lt_of_getElem?_eq_some hv)]
      exact hv
    · injection hnew with hnew
      subst hnew
      refine ⟨by simp [hI.acq], 1, ?_⟩
      show (w.counters ++ [some 1])[w.acquired]? = some (some 1)
      rw [hI.acq]
      simp
  · intro c v hc
    show sharersOf (w.objs ++ [_]) c ≤ v ∧ v ≤ n + 1
    rw [sharersOf_append_one]
    rcases getElem?_append_one hc with hold | ⟨hlen, hnew⟩
    · have hlt := lt_of_getElem?_eq_some hold
      have hne : w.counters.length ≠ c := by omega
      have := hI.cnt c v hold
      simp [holds, hne]
      omega
    · injection hnew with hnew
      subst hnew
      subst hlen
      have h0 := hI.no_sharers w.counters.length (by simp)
      simp [holds, h0]
  · intro r hr
    obtain ⟨h1, h2⟩ := hI.rel r hr
    refine ⟨?_, h2⟩
    show (w.counters ++ [some 1])[r.target]? = some none
    rw [List.getElem?_append_left (lt_of_getElem?_eq_some h1)]
    exact h1

theorem getElem?_set_some_some {cs : Counters} {c c' v x : Nat}
    (hv : cs[c]? = some (some v)) (h : (cs.set c (some x))[c']? = some (some v')) :
    (c' = c ∧ v' = x) ∨ (c' ≠ c ∧ cs[c']? = some (some v')) := by
  rw [List.getElem?_set] at h
  have hlt := lt_of_getElem?_eq_some hv
  by_cases hcc : c = c'
  · subst hcc
    simp [hlt] at h
    exact Or.inl ⟨rfl, h.symm⟩
  · simp [hcc] at h
    exact Or.inr ⟨fun e => hcc e.symm, h⟩

theorem getElem?_set_exists {cs : Counters} {c c' v x : Nat}
    (hv : cs[c]? = some (some v)) (h : ∃ u, cs[c']? = some (some u)) :
    ∃ u, (cs.set c (some x))[c']? = some (some u) := by
  obtain ⟨u, hu⟩ := h
  rw [List.getElem?_set]
  have hlt := lt_of_getElem?_eq_some hv
  by_cases hcc : c = c'
  · subst hcc
    exact ⟨x, by simp [hlt]⟩
  · exact ⟨u, by simp [hcc, hu]⟩

theorem getElem?_set_freed {cs : Counters} {c t v : Nat} {x : Option Nat}
    (hv : cs[c]? = some (some v)) (ht : cs[t]? = some none) :
    (cs.set c x)[t]? = some none := by
  rw [List.getElem?_set]
  have hne : c ≠ t := by
    intro e
    subst e
    rw [hv] at ht
    injection ht with ht
    exact Option.noConfusion ht
  simp [hne, ht]

theorem sound_copy {k : Kind} {w : World} {n c v : Nat} (hI : Sound k w n)
    (hv : w.counters[c]? = some (some v)) :
    Sound k ⟨w.counters.set c (some (v + 1)), w.objs ++ [some ⟨some c, c⟩],
      w.acquired, w.released⟩ (n + 1) := by
  refine ⟨?_, ?_, ?_, ?_, hI.nodup⟩
  · simp [hI.acq]
  · intro i h hi
    rcases getElem?_append_one hi with hold | ⟨_, hnew⟩
    · obtain ⟨h1, hex⟩ := hI.own i h hold
      exact ⟨h1, getElem?_set_exists hv hex⟩
    · injection hnew with hnew
      subst hnew
      exact ⟨rfl, getElem?_set_exists hv ⟨v, hv⟩⟩
  · intro c' v' hc
    show sharersOf (w.objs ++ [_]) c' ≤ v' ∧ v' ≤ n + 1
    rw [sharersOf_append_one]
    rcases getElem?_set_some_some hv hc with ⟨h1, h2⟩ | ⟨h1, h2⟩
    · subst h1 h2
      have := hI.cnt c' v hv
      simp [holds]
      omega
    · have := hI.cnt c' v' h2
      have hne : c ≠ c' := fun e => h1 e.symm
      simp [holds, hne]
      omega
  · intro r hr
    obtain ⟨h1, h2⟩ := hI.rel r hr
    exact ⟨getElem?_set_freed hv h1, h2⟩

theorem sound_assign {k : Kind} {w : World} {n c v dst : Nat} (hI : Sound k w n)
    (hv : w.counters[c]? = some (some v)) :
    Sound k ⟨w.counters.set c (some (v + 1)), w.objs.set dst (some ⟨some c, c⟩),
      w.acquired, w.released⟩ (n + 1) := by
  refine ⟨?_, ?_, ?_, ?_, hI.nodup⟩
  · simp [hI.acq]
  · intro i h hi
    have hi' : (w.objs.set dst (some ⟨some c, c⟩))[i]? = some (some h) := hi
    rw [List.getElem?_set] at hi'
    by_cases hd : dst = i
    · subst hd
      split at hi'
      · split at hi'
        · injection hi' with hi'
          injection hi' with hi'
          subst hi'
          exact ⟨rfl, getElem?_set_exists hv ⟨v, hv⟩⟩
        · exact Option.noConfusion hi'
      · rename_i hne
        exact absurd rfl hne
    · simp [hd] at hi'
      obtain ⟨h1, hex⟩ := hI.own i h hi'
      exact ⟨h1, getElem?_set_exists hv hex⟩
  · intro c' v' hc
    show sharersOf (w.objs.set dst _) c' ≤ v' ∧ v' ≤ n + 1
    have hle := sharersOf_set_le w.objs dst (some ⟨some c, c⟩) c'
    rcases getElem?_set_some_some hv hc with ⟨h1, h2⟩ | ⟨h1, h2⟩
    · subst h1 h2
      have := hI.cnt c' v hv
      simp [holds] at hle
      omega
    · have := hI.cnt c' v' h2
      have hne : c ≠ c' := fun e => h1 e.symm
      simp [holds, hne] at hle
      omega
  · intro r hr
    obtain ⟨h1, h2⟩ := hI.rel r hr
    exact ⟨getElem?_set_freed hv h1, h2⟩

theorem getElem?_set_none_some {objs : List (Option Handle)} {i j : Nat} {h : Handle}
    (hj : (objs.set i none)[j]? = some (some h)) : objs[j]? = some (some h) := by
  rw [List.getElem?_set] at hj
  by_cases hij : i = j
  · subst hij
    split at hj
    · split at hj
      · injection hj with hj
        exact Option.noConfusion hj
      · exact Option.noConfusion hj
    · rename_i hne
      exact absurd rfl hne
  · simpa [hij] using hj

theorem sound_destroy_last {k : Kind} {w : World} {n i : Nat} {h : Handle} (hI : Sound k w n)
    (hi : w.objs[i]? = some (some h)) (hv : w.counters[h.m_res]? = some (some 1)) :
    Sound k ⟨w.counters.set h.m_res none, w.objs.set i none, w.acquired,
      w.released ++ [k.release h.m_res]⟩ (n + 1) := by
  have hrc := (hI.own i h hi).1
  have hdrop := sharersOf_set_none w.objs i h h.m_res hi hrc
  have hone := (hI.cnt h.m_res 1 hv).1
  have hlt := lt_of_getElem?_eq_some hv
  have hzero : sharersOf (w.objs.set i none) h.m_res = 0 := by omega
  refine ⟨?_, ?_, ?_, ?_, ?_⟩
  · simp [hI.acq]
  · intro j h' hj
    have hj' := getElem?_set_none_some hj
    obtain ⟨h1, u, hu⟩ := hI.own j h' hj'
    refine ⟨h1, u, ?_⟩
    have hne : h.m_res ≠ h'.m_res := by
      intro e
      have hp := sharersOf_pos (w.objs.set i none) j h' h.m_res hj (by rw [h1, e])
      omega
    show (w.counters.set h.m_res none)[h'.m_res]? = some (some u)
    rw [List.getElem?_set_ne hne]
    exact hu
  · intro c' v' hc
    have hc' : (w.counters.set h.m_res none)[c']? = some (some v') := hc
    have hne : h.m_res ≠ c' := by
      intro e
      subst e
      rw [List.getElem?_set_self hlt] at hc'
      injection hc' with hc'
      exact Option.noConfusion hc'
    rw [List.getElem?_set_ne hne] at hc'
    have := hI.cnt c' v' hc'
    have hle := sharersOf_set_le w.objs i none c'
    simp [holds] at hle
    show sharersOf (w.objs.set i none) c' ≤ v' ∧ v' ≤ n + 1
    omega
  · intro r hr
    have hr' : r ∈ w.released ++ [k.release h.m_res] := hr
    rcases List.mem_append.mp hr' with hold | hnew
    · obtain ⟨h1, h2⟩ := hI.rel r hold
      exact ⟨getElem?_set_freed hv h1, h2⟩
    · have hreq : r = k.release h.m_res := by simpa using hnew
      subst hreq
      rw [Kind.target_release]
      exact ⟨List.getElem?_set_self hlt, rfl⟩
  · show ((w.released ++ [k.release h.m_res]).map Release.target).Nodup
    rw [List.map_append, List.nodup_append]
    refine ⟨hI.nodup, by simp, ?_⟩
    intro t ht1 ht2
    simp [Kind.target_release] at ht2
    subst ht2
    obtain ⟨r, hr, hrt⟩ := List.mem_map.mp ht1
    have := (hI.rel r hr).1
    rw [hrt, hv] at this
    injection this with this
    exact Option.noConfusion this

theorem sound_destroy_more {k : Kind} {w : World} {n i v : Nat} {h : Handle} (hI : Sound k w n)
    (hi : w.objs[i]? = some (some h)) (hv : w.counters[h.m_res]? = some (some (v + 1))) :
    Sound k ⟨w.counters.set h.m_res (some v), w.objs.set i none, w.acquired,
      w.released⟩ (n + 1) := by
  have hrc := (hI.own i h hi).1
  have hdrop := sharersOf_set_none w.objs i h h.m_res hi hrc
  have hcnt := hI.cnt h.m_res (v + 1) hv
  refine ⟨?_, ?_, ?_, ?_, hI.nodup⟩
  · simp [hI.acq]
  · intro j h' hj
    have hj' := getElem?_set_none_some hj
    obtain ⟨h1, hex⟩ := hI.own j h' hj'
    exact ⟨h1, getElem?_set_exists hv hex⟩
  · intro c' v' hc
    show sharersOf (w.objs.set i none) c' ≤ v' ∧ v' ≤ n + 1
    rcases getElem?_set_some_some hv hc with ⟨h1, h2⟩ | ⟨h1, h2⟩
    · subst h1 h2
      omega
    · have := hI.cnt c' v' h2
      have hle := sharersOf_set_le w.objs i none c'
      simp [holds] at hle
      omega
  · intro r hr
    obtain ⟨h1, h2⟩ := hI.rel r hr
    exact ⟨getElem?_set_freed hv h1, h2⟩

theorem World.live_eq_some {w : World} {i : Nat} {h : Handle} :
    w.live i = some h ↔ w.objs[i]? = some (some h) := by
  unfold World.live
  split
  · rename_i h' heq
    rw [heq]
    simp
  · rename_i hne
    constructor
    · intro hc
      exact Option.noConfusion hc
    · intro hc
      exact absurd hc (hne h)

theorem Kind.copyBase_eq {k : Kind} (hk : k ≠ Kind.blob) (x : RefCount) :
    k.copyBase x = ⟨x.m_refCount⟩ := by
  cases k with
  | statement => rfl
  | db => rfl
  | blob => exact absurd rfl hk

theorem step_sound (k : Kind) (w : World) (n : Nat) (op : Op) (hI : Sound k w n)
    (hn : n + 1 < UINT_MOD) (hop : k = Kind.blob → op.isCopy = false) :
    (step k w op).Reaches (fun w' => Sound k w' (n + 1)) := by
  cases op with
  | construct =>
    simp only [step, Handle.ctor, RefCount.ctor, IncRef_null, Outcome.Reaches]
    exact sound_construct hI
  | copy src =>
    cases hl : w.live src with
    | none => simp [step, hl, Outcome.Reaches]
    | some x =>
      obtain ⟨hrc, v, hv⟩ := hI.own src x (World.live_eq_some.mp hl)
      have hle := (hI.cnt x.m_res v hv).2
      have hmod : (v + 1) % UINT_MOD = v + 1 := Nat.mod_eq_of_lt (by omega)
      have hk : k ≠ Kind.blob := fun e => by simpa [Op.isCopy] using hop e
      simp only [step, hl, Handle.copyCtor, Kind.copyBase_eq hk, hrc, IncRef_held _ _ _ hv,
        hmod, Outcome.Reaches]
      exact sound_copy hI hv
  | assign dst src =>
    cases hd : w.live dst with
    | none => simp [step, hd, Outcome.Reaches]
    | some self =>
      cases hl : w.live src with
      | none => simp [step, hd, hl, Outcome.Reaches]
      | some x =>
        obtain ⟨hrc, v, hv⟩ := hI.own src x (World.live_eq_some.mp hl)
        have hle := (hI.cnt x.m_res v hv).2
        have hmod : (v + 1) % UINT_MOD = v + 1 := Nat.mod_eq_of_lt (by omega)
        by_cases hds : dst = src
        · simp only [step, hd, hl, hds, if_true, Outcome.Reaches]
          exact hI.mono (Nat.le_succ n)
        · simp only [step, hd, hl, hds, if_false, Handle.assign, RefCount.assign, hrc,
            IncRef_held _ _ _ hv, hmod, Outcome.Reaches]
          exact sound_assign hI hv
  | destroy i =>
    cases hl : w.live i with
    | none => simp [step, hl, Outcome.Reaches]
    | some self =>
      have hi := World.live_eq_some.mp hl
      obtain ⟨hrc, v, hv⟩ := hI.own i self hi
      have hcnt := hI.cnt self.m_res v hv
      have hpos := sharersOf_pos w.objs i self self.m_res hi hrc
      obtain ⟨u, hu⟩ : ∃ u, v = u + 1 := ⟨v - 1, by omega⟩
      subst hu
      have hmod : (u + 1 + UINT_MOD - 1) % UINT_MOD = u := by
        have : u + 1 + UINT_MOD - 1 = u + UINT_MOD := by omega
        rw [this, Nat.add_mod_right]
        exact Nat.mod_eq_of_lt (by omega)
      simp only [step, hl, Handle.dtor, hrc, DecRef_held _ _ _ hv, hmod]
      by_cases hu0 : u = 0
      · subst hu0
        simp only [if_true, List.append_nil, Outcome.Reaches]
        exact sound_destroy_last hI hi hv
      · simp only [hu0, if_false, List.append_nil, Outcome.Reaches]
        exact sound_destroy_more hI hi hv

theorem runFrom_sound (k : Kind) (ops : List Op) : ∀ (w : World) (n : Nat), Sound k w n →
    n + ops.length < UINT_MOD → (k = Kind.blob → ∀ op ∈ ops, op.isCopy = false) →
    (runFrom k w ops).Reaches (fun w' => Sound k w' (n + ops.length)) := by
  induction ops with
  | nil =>
    intro w n hI _ _
    exact hI
  | cons op ops ih =>
    intro w n hI hn hcopy
    have hn' : n + 1 + ops.length < UINT_MOD := by
      simp only [List.length_cons] at hn
      omega
    have hs := step_sound k w n op hI (by omega)
      (fun e => hcopy e op (List.mem_cons_self _ _))
    unfold runFrom
    cases hstep : step k w op with
    | ok w1 =>
      rw [hstep] at hs
      have := ih w1 (n + 1) hs hn' (fun e o ho => hcopy e o (List.mem_cons_of_mem _ ho))
      simp only [List.length_cons]
      have e : n + (ops.length + 1) = n + 1 + ops.length := by omega
      rw [e]
      exact this
    | threw e =>
      rw [hstep] at hs
      exact hs
    | abort f =>
      rw [hstep] at hs
      exact hs
/-! ### Lifetime: results -/

theorem Sound.safe {k : Kind} {w : World} {n : Nat} (hI : Sound k w n) : w.Safe := by
  refine ⟨?_, ?_, hI.nodup⟩
  · intro i h hl
    have hi := World.live_eq_some.mp hl
    obtain ⟨hrc, v, hv⟩ := hI.own i h hi
    have hcnt := (hI.cnt h.m_res v hv).1
    have hpos := sharersOf_pos w.objs i h h.m_res hi hrc
    exact ⟨h.m_res, v, hrc, hv, hcnt, by omega⟩
  · intro i h hl r hr e
    have hi := World.live_eq_some.mp hl
    obtain ⟨_, v, hv⟩ := hI.own i h hi
    have := (hI.rel r hr).1
    rw [e, hv] at this
    injection this with this
    exact Option.noConfusion this

theorem Outcome.Reaches.imp {α : Type} {P Q : α → Prop} (hPQ : ∀ a, P a → Q a) {o : Outcome α}
    (h : o.Reaches P) : o.Reaches Q := by
  cases o with
  | ok a => exact hPQ a h
  | threw e => exact h
  | abort f => exact h

theorem runFrom_append (k : Kind) (a b : List Op) : ∀ w : World,
    runFrom k w (a ++ b) =
      match runFrom k w a with
      | .ok w1 => runFrom k w1 b
      | .threw e => .threw e
      | .abort f => .abort f := by
  induction a with
  | nil => intro w; rfl
  | cons op a ih =>
    intro w
    simp only [List.cons_append, runFrom]
    cases step k w op with
    | ok w1 => exact ih w1
    | threw e => rfl
    | abort f => rfl

/-- Two objects sharing counter `0`: `m` times `obj1 = obj0` adds `m` to the counter, modulo
`2 ^ 32`, and changes nothing else. -/
theorem runFrom_assign_loop (k : Kind) (m : Nat) : ∀ v : Nat, v < UINT_MOD →
    runFrom k ⟨[some v], [some ⟨some 0, 0⟩, some ⟨some 0, 0⟩], 1, []⟩
        (List.replicate m (Op.assign 1 0)) =
      .ok ⟨[some ((v + m) % UINT_MOD)], [some ⟨some 0, 0⟩, some ⟨some 0, 0⟩], 1, []⟩ := by
  induction m with
  | zero =>
    intro v hv
    simp [runFrom, Nat.mod_eq_of_lt hv]
  | succ m ih =>
    intro v hv
    have hstep : step k ⟨[some v], [some ⟨some 0, 0⟩, some ⟨some 0, 0⟩], 1, []⟩ (Op.assign 1 0) =
        .ok ⟨[some ((v + 1) % UINT_MOD)], [some ⟨some 0, 0⟩, some ⟨some 0, 0⟩], 1, []⟩ := by
      simp [step, World.live, Handle.assign, RefCount.assign, RefCount.IncRef, Counters.preIncr]
    rw [List.replicate_succ, runFrom, hstep]
    have hlt : (v + 1) % UINT_MOD < UINT_MOD := Nat.mod_lt _ (by decide)
    show runFrom k _ (List.replicate m (Op.assign 1 0)) = _
    rw [ih _ hlt, Nat.mod_add_mod]
    have e : v + 1 + m = v + (m + 1) := by omega
    rw [e]

/-- C10, amended: for handles of kind Statement or Db, and for Blob handles as long as no Blob
is copy-constructed, in every state reached by fewer than `2 ^ 32` operations (construction,
copy-construction, assignment, self-assignment included, and destruction, from the empty
program) every live handle holds an allocated counter that is at least the number of live handles
sharing it and is not `0`, no release call names the native resource of a live handle, and no
native resource was released twice; such a run never fails the assertion of `DecRef`, never
touches a deleted counter and never throws: it can only stop because the calling program itself
named an object outside its lifetime. -/
theorem no_premature_or_double_release (k : Kind) (ops : List Op)
    (hlen : ops.length < UINT_MOD) (hcopy : ops.any (Op.isBlobCopy k) = false) :
    (run k ops).Reaches World.Safe := by
  have hc : k = Kind.blob → ∀ op ∈ ops, op.isCopy = false := by
    intro hk op hop
    have := List.any_eq_false.mp hcopy op hop
    simpa [Op.isBlobCopy, hk] using this
  have h := runFrom_sound k ops World.init 0 (Sound.init k) (by omega) hc
  exact Outcome.Reaches.imp (fun _ hs => hs.safe) h

theorem no_premature_or_double_release_witness :
    [Op.construct, Op.copy 0, Op.assign 1 0, Op.assign 0 0, Op.construct, Op.assign 2 1,
        Op.destroy 0, Op.destroy 2].length < UINT_MOD ∧
      [Op.construct, Op.copy 0, Op.assign 1 0, Op.assign 0 0, Op.construct, Op.assign 2 1,
        Op.destroy 0, Op.destroy 2].any (Op.isBlobCopy Kind.db) = false ∧
      (run Kind.db [Op.construct, Op.copy 0, Op.assign 1 0, Op.assign 0 0, Op.construct,
        Op.assign 2 1, Op.destroy 0, Op.destroy 2]).Reaches World.Safe :=
  ⟨by decide, by decide, no_premature_or_double_release Kind.db _ (by decide) (by decide)⟩

/-- After `Statement a(db, stmt); Statement b(a);` and `2 ^ 32 - 1` times `b = a` the shared
`unsigned` counter has wrapped around to `1`, so destroying `b` deletes the counter and finalizes
the native statement although `a` is alive and still refers to both. -/
theorem wraparound_run :
    run Kind.statement
        ([Op.construct, Op.copy 0] ++ List.replicate 4294967295 (Op.assign 1 0) ++
          [Op.destroy 1]) =
      .ok ⟨[none], [some ⟨some 0, 0⟩, none], 1, [Release.sqlite3_finalize 0]⟩ := by
  unfold run
  rw [List.append_assoc, runFrom_append]
  have h1 : runFrom Kind.statement World.init [Op.construct, Op.copy 0] =
      .ok ⟨[some 2], [some ⟨some 0, 0⟩, some ⟨some 0, 0⟩], 1, []⟩ := by decide
  rw [h1]
  show runFrom Kind.statement _ (List.replicate 4294967295 (Op.assign 1 0) ++ [Op.destroy 1]) = _
  rw [runFrom_append, runFrom_assign_loop Kind.statement 4294967295 2 (by decide)]
  have h2 : (2 + 4294967295) % UINT_MOD = 1 := by decide
  rw [h2]
  decide

/-- After `Statement a(db, stmt); Statement b(a);` and `2 ^ 32 - 2` times `b = a`, which is
`2 ^ 32` operations in all, the shared counter has wrapped around to `0`. -/
theorem wraparound_to_zero_run :
    run Kind.statement ([Op.construct, Op.copy 0] ++ List.replicate 4294967294 (Op.assign 1 0)) =
      .ok ⟨[some 0], [some ⟨some 0, 0⟩, some ⟨some 0, 0⟩], 1, []⟩ := by
  unfold run
  rw [runFrom_append]
  have h1 : runFrom Kind.statement World.init [Op.construct, Op.copy 0] =
      .ok ⟨[some 2], [some ⟨some 0, 0⟩, some ⟨some 0, 0⟩], 1, []⟩ := by decide
  rw [h1]
  show runFrom Kind.statement _ (List.replicate 4294967294 (Op.assign 1 0)) = _
  rw [runFrom_assign_loop Kind.statement 4294967294 2 (by decide)]
  have h2 : (2 + 4294967294) % UINT_MOD = 0 := by decide
  rw [h2]

theorem wraparound_to_zero_state_unsafe :
    ¬ World.Safe ⟨[some 0], [some ⟨some 0, 0⟩, some ⟨some 0, 0⟩], 1, []⟩ := by
  intro h
  obtain ⟨c, v, hc, hv, _, hpos⟩ := h.1 0 ⟨some 0, 0⟩ (by decide)
  simp only [Option.some.injEq] at hc
  subst hc
  simp at hv
  omega

theorem blob_copy_state_unsafe :
    ¬ World.Safe ⟨[none, some 1], [none, some ⟨some 1, 0⟩], 1, [Release.deleteArr 0]⟩ := by
  intro h
  exact h.2.1 1 ⟨some 1, 0⟩ (by decide) (Release.deleteArr 0) (by simp) rfl

theorem wraparound_state_unsafe :
    ¬ World.Safe ⟨[none], [some ⟨some 0, 0⟩, none], 1, [Release.sqlite3_finalize 0]⟩ := by
  intro h
  exact h.2.1 0 ⟨some 0, 0⟩ (by decide) (Release.sqlite3_finalize 0) (by simp) rfl

/-- C10 as stated fails, in two ways.  `Blob a(data, n); Blob b(a);` then the destruction of `a`
calls `delete[]` on the storage while `b` is alive and refers to it (object `1`, native
reference `0`), and the destruction of `b` calls `delete[]` on it a second time.  And for
Statement handles `Statement a(db, stmt); Statement b(a);`, `2 ^ 32 - 1` times `b = a`, then the
destruction of `b` finalizes the native statement while `a` is alive, its counter deleted;
already after `2 ^ 32` operations (`2 ^ 32 - 2` assignments) the two live handles share a
counter whose value is `0`. -/
theorem release_while_alive :
    (run Kind.blob [Op.construct, Op.copy 0, Op.destroy 0] =
        .ok ⟨[none, some 1], [none, some ⟨some 1, 0⟩], 1, [Release.deleteArr 0]⟩ ∧
      ¬ World.Safe ⟨[none, some 1], [none, some ⟨some 1, 0⟩], 1, [Release.deleteArr 0]⟩ ∧
      run Kind.blob [Op.construct, Op.copy 0, Op.destroy 0, Op.destroy 1] =
        .ok ⟨[none, none], [none, none], 1, [Release.deleteArr 0, Release.deleteArr 0]⟩) ∧
    (run Kind.statement
        ([Op.construct, Op.copy 0] ++ List.replicate 4294967295 (Op.assign 1 0) ++
          [Op.destroy 1]) =
      .ok ⟨[none], [some ⟨some 0, 0⟩, none], 1, [Release.sqlite3_finalize 0]⟩ ∧
      ¬ World.Safe ⟨[none], [some ⟨some 0, 0⟩, none], 1, [Release.sqlite3_finalize 0]⟩ ∧
      run Kind.statement
          ([Op.construct, Op.copy 0] ++ List.replicate 4294967294 (Op.assign 1 0)) =
        .ok ⟨[some 0], [some ⟨some 0, 0⟩, some ⟨some 0, 0⟩], 1, []⟩ ∧
      ¬ World.Safe ⟨[some 0], [some ⟨some 0, 0⟩, some ⟨some 0, 0⟩], 1, []⟩) :=
  ⟨⟨by decide, blob_copy_state_unsafe, by decide⟩, wraparound_run, wraparound_state_unsafe,
    wraparound_to_zero_run, wraparound_to_zero_state_unsafe⟩

/-- C1 at its failing input: two handles on two native resources, `obj0 = obj1`, then both are
destroyed.  Two resources were acquired, every handle is gone, one release call was made, and
the counter of resource `0` is still allocated with value `1`: resource `0` is never released. -/
theorem assignment_leaks_overwritten_resource (k : Kind) :
    run k [Op.construct, Op.construct, Op.assign 0 1, Op.destroy 0, Op.destroy 1] =
      .ok ⟨[some 1, none], [none, none], 2, [k.release 1]⟩ := by
  cases k <;> decide
/-! ### Statement: evaluation of `Next` and of the binds -/

theorem Statement.Next_self (E : Engine) (st : Statement) (ret : Int) (h : st.m_stmt ≠ 0) :
    (st.Next E ret).self = { st with m_needReset := true } ∧
      (st.Next E ret).calls = [Call.sqlite3_step st.m_stmt] := by
  unfold Statement.Next CHECK
  simp only [h, if_false]
  split
  · exact ⟨rfl, rfl⟩
  · split
    · exact ⟨rfl, rfl⟩
    · split <;> exact ⟨rfl, rfl⟩

theorem Statement.Next_null (E : Engine) (st : Statement) (ret : Int) (h : st.m_stmt = 0) :
    (st.Next E ret).out = .abort .assertion := by
  simp [Statement.Next, h]

theorem Statement.bind_fresh (E : Engine) (st : Statement) (i : Int) (arg : BindArg) (ret : Int)
    (h : st.m_needReset = false) :
    (st.bind E i arg ret).self = st ∧
      (st.bind E i arg ret).calls = [arg.call st.m_stmt i] ∧
      (st.bind E i arg ret).out = CHECK E st.m_db ret := by
  cases arg <;>
    simp [Statement.bind, Statement.Bind, Statement.BindBlob, Statement.BindNull,
      Statement.resetIfNeeded, Res.andThen, Statement.DoBind, Statement.DoBindBlob,
      Statement.DoBindNull, BindArg.call, h]

theorem Statement.bind_stepped (E : Engine) (st : Statement) (i : Int) (arg : BindArg)
    (ret : Int) (h : st.m_needReset = true) (hs : st.m_stmt ≠ 0) :
    (st.bind E i arg ret).self = { st with m_needReset := false } ∧
      (st.bind E i arg ret).calls = [Call.sqlite3_reset st.m_stmt, arg.call st.m_stmt i] ∧
      (st.bind E i arg ret).out = CHECK E st.m_db ret := by
  cases arg <;>
    simp [Statement.bind, Statement.Bind, Statement.BindBlob, Statement.BindNull,
      Statement.resetIfNeeded, Statement.Reset, Res.andThen, Statement.DoBind,
      Statement.DoBindBlob, Statement.DoBindNull, BindArg.call, h, hs]

theorem Statement.bind_stepped_null (E : Engine) (st : Statement) (i : Int) (arg : BindArg)
    (ret : Int) (h : st.m_needReset = true) (hs : st.m_stmt = 0) :
    (st.bind E i arg ret).out = .abort .assertion := by
  cases arg <;>
    simp [Statement.bind, Statement.Bind, Statement.BindBlob, Statement.BindNull,
      Statement.resetIfNeeded, Statement.Reset, Res.andThen, h, hs]

theorem CHECK_ne_abort (E : Engine) (db : Nat) (ret : Int) (f : Fault) :
    CHECK E db ret ≠ .abort f := by
  unfold CHECK
  split <;> intro h <;> exact Outcome.noConfusion h

/-! ### The log of native calls -/

theorem steppedSinceReset_step (log : List Call) (s : Nat) :
    steppedSinceReset (log ++ [Call.sqlite3_step s]) s = true := by
  simp [steppedSinceReset, List.foldl_append]

theorem steppedSinceReset_bind (log : List Call) (s t : Nat) (i : Int) (arg : BindArg) :
    steppedSinceReset (log ++ [arg.call s i]) t = steppedSinceReset log t := by
  cases arg with
  | value v => cases v <;> simp [steppedSinceReset, List.foldl_append, BindArg.call, BindValue.call]
  | blob p n => simp [steppedSinceReset, List.foldl_append, BindArg.call]
  | null => simp [steppedSinceReset, List.foldl_append, BindArg.call]

theorem steppedSinceReset_reset_bind (log : List Call) (s : Nat) (i : Int) (arg : BindArg) :
    steppedSinceReset (log ++ [Call.sqlite3_reset s, arg.call s i]) s = false := by
  have e : log ++ [Call.sqlite3_reset s, arg.call s i] =
      (log ++ [Call.sqlite3_reset s]) ++ [arg.call s i] := by simp
  rw [e, steppedSinceReset_bind]
  simp [steppedSinceReset, List.foldl_append]
/-! ### Programs that only step and bind one Statement -/

theorem getElem?_singleton_some {α : Type} {a b : α} {i : Nat} (h : [a][i]? = some b) :
    i = 0 ∧ a = b := by
  cases i with
  | zero => exact ⟨rfl, by simpa using h⟩
  | succ j => simp at h

theorem sstep_single (E : Engine) (stmt : Nat) (w w' : SWorld) (op : SOp)
    (hS : w.Single stmt) (hop : op.isCopy = false) (hstep : sstep E w op = .ok w') :
    w'.Single stmt := by
  obtain ⟨st, hst, hstmt, hflag, hnz⟩ := hS
  cases op with
  | copy src => simp [SOp.isCopy] at hop
  | assign dst src =>
    simp only [sstep, hst] at hstep
    cases hd : [st][dst]? with
    | none => simp [hd] at hstep
    | some self =>
      cases hs : [st][src]? with
      | none => simp [hd, hs] at hstep
      | some x =>
        have hds : dst = src :=
          (getElem?_singleton_some hd).1.trans (getElem?_singleton_some hs).1.symm
        simp only [hd, hs, hds, if_true] at hstep
        injection hstep with hstep
        subst hstep
        exact ⟨st, hst, hstmt, hflag, hnz⟩
  | next i ret =>
    simp only [sstep, hst] at hstep
    cases hi : [st][i]? with
    | none => simp [hi] at hstep
    | some self =>
      obtain ⟨hi0, hself⟩ := getElem?_singleton_some hi
      subst hi0 hself
      simp only [hi] at hstep
      by_cases hz : st.m_stmt = 0
      · simp [SWorld.after, Statement.Next_null E st ret hz] at hstep
      · obtain ⟨hs1, hs2⟩ := Statement.Next_self E st ret hz
        unfold SWorld.after at hstep
        rw [hs1, hs2, hst] at hstep
        have hw : w' = ⟨w.counters, [{ st with m_needReset := true }],
            w.log ++ [Call.sqlite3_step st.m_stmt]⟩ := by
          split at hstep
          · exact Outcome.noConfusion hstep
          · injection hstep with hstep
            exact hstep.symm
        subst hw
        refine ⟨_, rfl, hstmt, ?_, fun _ => hstmt ▸ hz⟩
        rw [← hstmt]
        exact (steppedSinceReset_step w.log st.m_stmt).symm
  | bind i pos arg ret =>
    simp only [sstep, hst] at hstep
    cases hi : [st][i]? with
    | none => simp [hi] at hstep
    | some self =>
      obtain ⟨hi0, hself⟩ := getElem?_singleton_some hi
      subst hi0 hself
      simp only [hi] at hstep
      cases hf : st.m_needReset with
      | false =>
        obtain ⟨hs1, hs2, hs3⟩ := Statement.bind_fresh E st pos arg ret hf
        unfold SWorld.after at hstep
        rw [hs1, hs2, hs3, hst] at hstep
        have hw : w' = ⟨w.counters, [st], w.log ++ [arg.call st.m_stmt pos]⟩ := by
          split at hstep
          · exact Outcome.noConfusion hstep
          · injection hstep with hstep
            exact hstep.symm
        subst hw
        refine ⟨st, rfl, hstmt, ?_, hnz⟩
        show st.m_needReset = steppedSinceReset (w.log ++ [arg.call st.m_stmt pos]) stmt
        rw [steppedSinceReset_bind]
        exact hflag
      | true =>
        have hz : st.m_stmt ≠ 0 := hstmt ▸ hnz hf
        obtain ⟨hs1, hs2, hs3⟩ := Statement.bind_stepped E st pos arg ret hf hz
        unfold SWorld.after at hstep
        rw [hs1, hs2, hs3, hst] at hstep
        have hw : w' = ⟨w.counters, [{ st with m_needReset := false }],
            w.log ++ [Call.sqlite3_reset st.m_stmt, arg.call st.m_stmt pos]⟩ := by
          split at hstep
          · exact Outcome.noConfusion hstep
          · injection hstep with hstep
            exact hstep.symm
        subst hw
        refine ⟨_, rfl, hstmt, ?_, fun h => Bool.noConfusion h⟩
        rw [← hstmt]
        exact (steppedSinceReset_reset_bind w.log st.m_stmt pos arg).symm

theorem srunFrom_single (E : Engine) (stmt : Nat) (ops : List SOp) :
    ∀ w w' : SWorld, w.Single stmt → (∀ op ∈ ops, op.isCopy = false) →
      srunFrom E w ops = .ok w' → w'.Single stmt := by
  induction ops with
  | nil =>
    intro w w' hS _ hrun
    injection hrun with hrun
    exact hrun ▸ hS
  | cons op ops ih =>
    intro w w' hS hops hrun
    unfold srunFrom at hrun
    cases hstep : sstep E w op with
    | ok w1 =>
      rw [hstep] at hrun
      exact ih w1 w' (sstep_single E stmt w w1 op hS (hops op (List.mem_cons_self _ _)) hstep)
        (fun o ho => hops o (List.mem_cons_of_mem _ ho)) hrun
    | threw e =>
      rw [hstep] at hrun
      exact Outcome.noConfusion hrun
    | abort f =>
      rw [hstep] at hrun
      exact Outcome.noConfusion hrun

theorem srun_single (E : Engine) (db stmt : Nat) (ops : List SOp) (w : SWorld)
    (hops : ∀ op ∈ ops, op.isCopy = false) (hrun : srun E db stmt ops = .ok w) :
    w.Single stmt := by
  simp only [srun, Statement.ctor, RefCount.ctor, IncRef_null] at hrun
  refine srunFrom_single E stmt ops _ w ?_ hops hrun
  exact ⟨_, rfl, rfl, rfl, fun h => Bool.noConfusion h⟩
/-! ### Following one object through a program with several Statements -/

theorem Statement.copyCtor_fresh {cs cs1 : Counters} {x s : Statement}
    (h : Statement.copyCtor cs x = .ok (cs1, s)) : s.m_needReset = false := by
  unfold Statement.copyCtor at h
  cases hinc : RefCount.IncRef cs (RefCount.copyCtor ⟨x.m_refCount⟩) with
  | ok p =>
    rw [hinc] at h
    injection h with h
    injection h with _ h2
    rw [← h2]
  | threw e =>
    rw [hinc] at h
    exact Outcome.noConfusion h
  | abort f =>
    rw [hinc] at h
    exact Outcome.noConfusion h

theorem SWorld.after_ok {α : Type} {w w' : SWorld} {j : Nat} {r : Res α}
    (h : w.after j r = .ok w') :
    w' = ⟨w.counters, w.stmts.set j r.self, w.log ++ r.calls⟩ ∧ ∀ f, r.out ≠ .abort f := by
  unfold SWorld.after at h
  split at h
  · exact Outcome.noConfusion h
  · rename_i hne
    injection h with h
    exact ⟨h.symm, fun f hf => hne f hf⟩

theorem sstep_tracks (E : Engine) (i : Nat) (p : Bool) (w w' : SWorld) (op : SOp)
    (hT : w.Tracks i p) (hop : op.assignsInto i = false) (hstep : sstep E w op = .ok w') :
    w'.Tracks i (SOp.track i p op) := by
  obtain ⟨hT1, hT2⟩ := hT
  cases op with
  | copy src =>
    simp only [sstep] at hstep
    cases hsrc : w.stmts[src]? with
    | none => simp [hsrc] at hstep
    | some x =>
      simp only [hsrc] at hstep
      cases hc : Statement.copyCtor w.counters x with
      | ok q =>
        obtain ⟨cs1, s⟩ := q
        simp only [hc] at hstep
        injection hstep with hstep
        subst hstep
        have hs := Statement.copyCtor_fresh hc
        refine ⟨?_, ?_⟩
        · intro st hst
          have hst' : (w.stmts ++ [s])[i]? = some st := hst
          rcases getElem?_append_one hst' with hold | ⟨hlen, hnew⟩
          · exact hT1 st hold
          · have hp : p = false := hT2 (by omega)
            subst hnew
            exact ⟨by simp [SOp.track, hs, hp], fun h => by simp [SOp.track, hp] at h⟩
        · intro hlen
          have hlen' : (w.stmts ++ [s]).length ≤ i := hlen
          simp only [List.length_append, List.length_singleton] at hlen'
          exact hT2 (by omega)
      | threw e => simp [hc] at hstep
      | abort f => simp [hc] at hstep
  | assign dst src =>
    simp only [sstep] at hstep
    cases hd : w.stmts[dst]? with
    | none => simp [hd] at hstep
    | some self =>
      cases hs : w.stmts[src]? with
      | none => simp [hd, hs] at hstep
      | some x =>
        simp only [hd, hs] at hstep
        by_cases hds : dst = src
        · simp only [hds, if_true] at hstep
          injection hstep with hstep
          subst hstep
          exact ⟨hT1, hT2⟩
        · simp only [hds, if_false] at hstep
          have hdi : dst ≠ i := by
            intro e
            subst e
            simp [SOp.assignsInto, hds] at hop
          cases ha : Statement.assign w.counters self x with
          | ok q =>
            obtain ⟨cs1, s⟩ := q
            simp only [ha] at hstep
            injection hstep with hstep
            subst hstep
            refine ⟨?_, ?_⟩
            · intro st hst
              have hst' : (w.stmts.set dst s)[i]? = some st := hst
              rw [List.getElem?_set_ne hdi] at hst'
              exact hT1 st hst'
            · intro hlen
              have hlen' : (w.stmts.set dst s).length ≤ i := hlen
              rw [List.length_set] at hlen'
              exact hT2 hlen'
          | threw e => simp [ha] at hstep
          | abort f => simp [ha] at hstep
  | next j ret =>
    simp only [sstep] at hstep
    cases hj : w.stmts[j]? with
    | none => simp [hj] at hstep
    | some self =>
      simp only [hj] at hstep
      obtain ⟨hw, hout⟩ := SWorld.after_ok hstep
      subst hw
      have hjlt := lt_of_getElem?_eq_some hj
      by_cases hji : j = i
      · subst hji
        have hz : self.m_stmt ≠ 0 := fun hz => hout _ (Statement.Next_null E self ret hz)
        refine ⟨?_, ?_⟩
        · intro st hst
          have hst' : (w.stmts.set j (self.Next E ret).self)[j]? = some st := hst
          rw [List.getElem?_set_self hjlt, (Statement.Next_self E self ret hz).1] at hst'
          injection hst' with hst'
          subst hst'
          exact ⟨by simp [SOp.track], fun _ => hz⟩
        · intro hlen
          have hlen' : (w.stmts.set j (self.Next E ret).self).length ≤ j := hlen
          rw [List.length_set] at hlen'
          omega
      · refine ⟨?_, ?_⟩
        · intro st hst
          have hst' : (w.stmts.set j (self.Next E ret).self)[i]? = some st := hst
          rw [List.getElem?_set_ne hji] at hst'
          simpa [SOp.track, hji] using hT1 st hst'
        · intro hlen
          have hlen' : (w.stmts.set j (self.Next E ret).self).length ≤ i := hlen
          rw [List.length_set] at hlen'
          simpa [SOp.track, hji] using hT2 hlen'
  | bind j pos arg ret =>
    simp only [sstep] at hstep
    cases hj : w.stmts[j]? with
    | none => simp [hj] at hstep
    | some self =>
      simp only [hj] at hstep
      obtain ⟨hw, hout⟩ := SWorld.after_ok hstep
      subst hw
      have hjlt := lt_of_getElem?_eq_some hj
      by_cases hji : j = i
      · subst hji
        obtain ⟨hflag, hnz⟩ := hT1 self hj
        have hself : (self.bind E pos arg ret).self.m_needReset = false := by
          cases hf : self.m_needReset with
          | false => rw [(Statement.bind_fresh E self pos arg ret hf).1, hf]
          | true =>
            have hz : self.m_stmt ≠ 0 := hnz (by rw [← hflag, hf])
            rw [(Statement.bind_stepped E self pos arg ret hf hz).1]
        refine ⟨?_, ?_⟩
        · intro st hst
          have hst' : (w.stmts.set j (self.bind E pos arg ret).self)[j]? = some st := hst
          rw [List.getElem?_set_self hjlt] at hst'
          injection hst' with hst'
          subst hst'
          exact ⟨by simp [SOp.track, hself], fun h => by simp [SOp.track] at h⟩
        · intro hlen
          have hlen' : (w.stmts.set j (self.bind E pos arg ret).self).length ≤ j := hlen
          rw [List.length_set] at hlen'
          omega
      · refine ⟨?_, ?_⟩
        · intro st hst
          have hst' : (w.stmts.set j (self.bind E pos arg ret).self)[i]? = some st := hst
          rw [List.getElem?_set_ne hji] at hst'
          simpa [SOp.track, hji] using hT1 st hst'
        · intro hlen
          have hlen' : (w.stmts.set j (self.bind E pos arg ret).self).length ≤ i := hlen
          rw [List.length_set] at hlen'
          simpa [SOp.track, hji] using hT2 hlen'

theorem srunFrom_tracks (E : Engine) (i : Nat) (ops : List SOp) :
    ∀ (p : Bool) (w w' : SWorld), w.Tracks i p → (∀ op ∈ ops, op.assignsInto i = false) →
      srunFrom E w ops = .ok w' → w'.Tracks i (ops.foldl (SOp.track i) p) := by
  induction ops with
  | nil =>
    intro p w w' hT _ hrun
    injection hrun with hrun
    exact hrun ▸ hT
  | cons op ops ih =>
    intro p w w' hT hops hrun
    unfold srunFrom at hrun
    cases hstep : sstep E w op with
    | ok w1 =>
      rw [hstep] at hrun
      exact ih _ w1 w' (sstep_tracks E i p w w1 op hT (hops op (List.mem_cons_self _ _)) hstep)
        (fun o ho => hops o (List.mem_cons_of_mem _ ho)) hrun
    | threw e =>
      rw [hstep] at hrun
      exact Outcome.noConfusion hrun
    | abort f =>
      rw [hstep] at hrun
      exact Outcome.noConfusion hrun
/-! ### Statement: results -/

/-- C2, amended: take a program whose Statement objects are fresh from a constructor
(`m_needReset == false`) and which goes on with any sequence of copy constructions,
assignments, `Next()` and bind calls, whatever statuses the engine returns and whether or not
the calls throw.  For every Statement object `i` to which the program never assigns from
another Statement, the next bind on it (`Bind<T>`, `BindBlob` or `BindNull`) makes exactly the
native calls `sqlite3_reset` then the native bind when `Next()` has been called on that
object since its construction or its last reset, and the native bind alone otherwise. -/
theorem implicit_reset_correct (E : Engine) (cs : Counters) (stmts0 : List Statement)
    (ops : List SOp) (w : SWorld) (i : Nat) (st : Statement) (pos : Int) (arg : BindArg)
    (ret : Int) (hfresh : stmts0.all (fun s => !s.m_needReset) = true)
    (hops : ops.any (SOp.assignsInto i) = false)
    (hrun : srunFrom E ⟨cs, stmts0, []⟩ ops = .ok w) (hst : w.stmts[i]? = some st) :
    (st.bind E pos arg ret).calls =
      (if nextPending i ops = true then [Call.sqlite3_reset st.m_stmt] else [])
        ++ [arg.call st.m_stmt pos] := by
  have hops' : ∀ op ∈ ops, op.assignsInto i = false := fun op hop => by
    simpa using List.any_eq_false.mp hops op hop
  have hT : (⟨cs, stmts0, []⟩ : SWorld).Tracks i false := by
    refine ⟨fun s hs => ⟨?_, fun h => Bool.noConfusion h⟩, fun _ => rfl⟩
    have hmem : s ∈ stmts0 := List.getElem?_mem hs
    simpa using List.all_eq_true.mp hfresh s hmem
  obtain ⟨hflag, hnz⟩ := (srunFrom_tracks E i ops false _ w hT hops' hrun).1 st hst
  have hp : nextPending i ops = st.m_needReset := hflag.symm
  cases hf : st.m_needReset with
  | false =>
    rw [(Statement.bind_fresh E st pos arg ret hf).2.1, hp, hf]
    simp
  | true =>
    have hz : st.m_stmt ≠ 0 := hnz (by rw [← hflag, hf])
    rw [(Statement.bind_stepped E st pos arg ret hf hz).2.1, hp, hf]
    simp

theorem implicit_reset_correct_witness :
    [(⟨some 0, 1, 2, false⟩ : Statement)].all (fun s => !s.m_needReset) = true ∧
      [SOp.next 0 100, SOp.copy 0, SOp.bind 0 1 (BindArg.value (BindValue.int 5)) 0,
        SOp.next 1 5, SOp.assign 0 0, SOp.next 0 101, SOp.assign 1 0].any
          (SOp.assignsInto 0) = false ∧
      srunFrom Engine.quiet ⟨[some 1], [⟨some 0, 1, 2, false⟩], []⟩
          [SOp.next 0 100, SOp.copy 0, SOp.bind 0 1 (BindArg.value (BindValue.int 5)) 0,
            SOp.next 1 5, SOp.assign 0 0, SOp.next 0 101, SOp.assign 1 0] =
        .ok ⟨[some 3], [⟨some 0, 1, 2, true⟩, ⟨some 0, 1, 2, true⟩],
          [Call.sqlite3_step 2, Call.sqlite3_reset 2, Call.sqlite3_bind_int 2 1 5,
            Call.sqlite3_step 2, Call.sqlite3_step 2]⟩ ∧
      [(⟨some 0, 1, 2, true⟩ : Statement), ⟨some 0, 1, 2, true⟩][0]? =
        some ⟨some 0, 1, 2, true⟩ ∧
      (Statement.bind Engine.quiet ⟨some 0, 1, 2, true⟩ 3 (BindArg.blob 7 4) 0).calls =
        (if nextPending 0
            [SOp.next 0 100, SOp.copy 0, SOp.bind 0 1 (BindArg.value (BindValue.int 5)) 0,
              SOp.next 1 5, SOp.assign 0 0, SOp.next 0 101, SOp.assign 1 0] = true
          then [Call.sqlite3_reset 2] else []) ++ [BindArg.call 2 3 (BindArg.blob 7 4)] :=
  ⟨by decide, by decide, by decide, by decide,
    implicit_reset_correct Engine.quiet [some 1] [⟨some 0, 1, 2, false⟩]
      [SOp.next 0 100, SOp.copy 0, SOp.bind 0 1 (BindArg.value (BindValue.int 5)) 0,
        SOp.next 1 5, SOp.assign 0 0, SOp.next 0 101, SOp.assign 1 0]
      ⟨[some 3], [⟨some 0, 1, 2, true⟩, ⟨some 0, 1, 2, true⟩],
        [Call.sqlite3_step 2, Call.sqlite3_reset 2, Call.sqlite3_bind_int 2 1 5,
          Call.sqlite3_step 2, Call.sqlite3_step 2]⟩
      0 ⟨some 0, 1, 2, true⟩ 3 (BindArg.blob 7 4) 0 (by decide) (by decide) (by decide)
      (by decide)⟩

/-- C2 as stated fails, because `operator=` copies `m_needReset` from its source.
`Statement a(db, stmt); Statement b(a); b.Next(); b = a;`: `Next()` has been called on `b`
since its construction and nothing has reset it, yet a bind on `b` makes the native bind
alone, with no `sqlite3_reset`, on a native statement that has been stepped.  And with two
Statements built by the two-argument constructor, `a.Next(); b = a;`: no `Next()` was ever
called on `b`, yet a bind on `b` makes a `sqlite3_reset` first. -/
theorem assignment_overrides_needReset :
    (srun Engine.quiet 1 2 [SOp.copy 0, SOp.next 1 100, SOp.assign 1 0] =
        .ok ⟨[some 3], [⟨some 0, 1, 2, false⟩, ⟨some 0, 1, 2, false⟩], [Call.sqlite3_step 2]⟩ ∧
      nextPending 1 [SOp.copy 0, SOp.next 1 100, SOp.assign 1 0] = true ∧
      steppedSinceReset [Call.sqlite3_step 2] 2 = true ∧
      (Statement.bind Engine.quiet ⟨some 0, 1, 2, false⟩ 1 BindArg.null 0).calls =
        [Call.sqlite3_bind_null 2 1]) ∧
    (srunFrom Engine.quiet
          ⟨[some 1, some 1], [⟨some 0, 1, 2, false⟩, ⟨some 1, 1, 3, false⟩], []⟩
          [SOp.next 0 100, SOp.assign 1 0] =
        .ok ⟨[some 2, some 1], [⟨some 0, 1, 2, true⟩, ⟨some 0, 1, 2, true⟩],
          [Call.sqlite3_step 2]⟩ ∧
      nextPending 1 [SOp.next 0 100, SOp.assign 1 0] = false ∧
      (Statement.bind Engine.quiet ⟨some 0, 1, 2, true⟩ 1 BindArg.null 0).calls =
        [Call.sqlite3_reset 2, Call.sqlite3_bind_null 2 1]) := by
  decide

/-- Every status of `sqlite3_step` and what `Next()` does with it, for a Statement with a
non-null `m_stmt`: `m_needReset` is set and one `sqlite3_step` call is made in every case;
`SQLITE_ROW` returns true, `SQLITE_DONE` returns false, `SQLITE_OK` reaches the end of the
function without a `return`, every other status throws `Exception(m_db, ret)`. -/
theorem Statement.Next_outcome (E : Engine) (st : Statement) (ret : Int) (h : st.m_stmt ≠ 0) :
    (st.Next E ret).self = { st with m_needReset := true } ∧
      (st.Next E ret).out =
        if ret = SQLITE_DONE then .ok false
        else if ret = SQLITE_ROW then .ok true
        else if ret = SQLITE_OK then .abort .noReturn
        else .threw (Exception.ofStatus E st.m_db ret) := by
  refine ⟨(Statement.Next_self E st ret h).1, ?_⟩
  have hRD : SQLITE_ROW ≠ SQLITE_DONE := by decide
  have hOD : SQLITE_OK ≠ SQLITE_DONE := by decide
  have hOR : SQLITE_OK ≠ SQLITE_ROW := by decide
  unfold Statement.Next CHECK
  simp only [h, if_false]
  by_cases h1 : ret = SQLITE_DONE
  · simp [h1]
  · by_cases h2 : ret = SQLITE_ROW
    · simp [h2, hRD]
    · by_cases h3 : ret = SQLITE_OK
      · simp [h3, hOD, hOR]
      · simp [h1, h2, h3]

/-- C3 at its failing input: when `sqlite3_step` returns `SQLITE_OK`, `Next()` on a Statement
with a non-null `m_stmt` neither returns a value nor throws: after `CHECK(m_db, ret)`, which
does not throw for `SQLITE_OK`, control reaches the end of the function.  `m_needReset` was
set before. -/
theorem Next_reaches_end_on_SQLITE_OK (E : Engine) (rc : Option Nat) (db stmt : Nat)
    (flag : Bool) :
    (Statement.Next E ⟨rc, db, stmt + 1, flag⟩ SQLITE_OK).out = .abort .noReturn ∧
      (Statement.Next E ⟨rc, db, stmt + 1, flag⟩ SQLITE_OK).self.m_needReset = true := by
  have h := Statement.Next_outcome E ⟨rc, db, stmt + 1, flag⟩ SQLITE_OK (by simp)
  refine ⟨?_, by rw [h.1]⟩
  have hOD : SQLITE_OK ≠ SQLITE_DONE := by decide
  have hOR : SQLITE_OK ≠ SQLITE_ROW := by decide
  rw [h.2]
  simp [hOD, hOR]

theorem failed_bind_state_aux (E : Engine) (st : Statement) (i : Int) (arg : BindArg)
    (ret : Int) (hret : ret ≠ SQLITE_OK) (hvalid : st.m_needReset = true → st.m_stmt ≠ 0) :
    (st.bind E i arg ret).out = .threw (Exception.ofStatus E st.m_db ret) := by
  have hcheck : CHECK E st.m_db ret = .threw (Exception.ofStatus E st.m_db ret) := by
    simp [CHECK, hret]
  cases hf : st.m_needReset with
  | false => exact (Statement.bind_fresh E st i arg ret hf).2.2.trans hcheck
  | true => exact (Statement.bind_stepped E st i arg ret hf (hvalid hf)).2.2.trans hcheck

/-- C4, amended: when the engine rejects the native bind call of a bind operation with a status
other than `SQLITE_OK`, the operation throws `Exception(m_db, ret)`, and the object afterwards has
the same counter, connection and native statement references and `m_needReset == false`: the
object is unchanged when it was Fresh, where the rejected native bind is the only native call
made, and when it was Stepped the implicit reset has been made (`sqlite3_reset` is called, then
the rejected native bind) and the flag cleared. -/
theorem failed_bind_state (E : Engine) (st : Statement) (i : Int) (arg : BindArg) (ret : Int)
    (hret : ret ≠ SQLITE_OK) (hvalid : st.m_needReset = true → st.m_stmt ≠ 0) :
    (st.bind E i arg ret).out = .threw (Exception.ofStatus E st.m_db ret) ∧
      (st.bind E i arg ret).self = { st with m_needReset := false } ∧
      (st.m_needReset = false → (st.bind E i arg ret).self = st) ∧
      (st.bind E i arg ret).calls =
        (if st.m_needReset = true then [Call.sqlite3_reset st.m_stmt] else [])
          ++ [arg.call st.m_stmt i] := by
  have hcheck : CHECK E st.m_db ret = .threw (Exception.ofStatus E st.m_db ret) := by
    simp [CHECK, hret]
  cases hf : st.m_needReset with
  | false =>
    obtain ⟨h1, h2, h3⟩ := Statement.bind_fresh E st i arg ret hf
    refine ⟨h3.trans hcheck, ?_, fun _ => h1, by simp [h2]⟩
    rw [h1, ← hf]
  | true =>
    obtain ⟨h1, h2, h3⟩ := Statement.bind_stepped E st i arg ret hf (hvalid hf)
    exact ⟨h3.trans hcheck, h1, fun h => Bool.noConfusion h, by simp [h2]⟩

theorem failed_bind_state_witness :
    ((25 : Int) ≠ SQLITE_OK ∧
      ((⟨some 0, 1, 2, true⟩ : Statement).m_needReset = true →
        (⟨some 0, 1, 2, true⟩ : Statement).m_stmt ≠ 0) ∧
      (Statement.bind Engine.quiet ⟨some 0, 1, 2, true⟩ 1 BindArg.null 25).out =
        .threw (Exception.ofStatus Engine.quiet 1 25) ∧
      (Statement.bind Engine.quiet ⟨some 0, 1, 2, true⟩ 1 BindArg.null 25).self =
        ⟨some 0, 1, 2, false⟩ ∧
      ((⟨some 0, 1, 2, true⟩ : Statement).m_needReset = false →
        (Statement.bind Engine.quiet ⟨some 0, 1, 2, true⟩ 1 BindArg.null 25).self =
          ⟨some 0, 1, 2, true⟩) ∧
      (Statement.bind Engine.quiet ⟨some 0, 1, 2, true⟩ 1 BindArg.null 25).calls =
        (if (⟨some 0, 1, 2, true⟩ : Statement).m_needReset = true
          then [Call.sqlite3_reset 2] else []) ++ [BindArg.call 2 1 BindArg.null]) ∧
    ((21 : Int) ≠ SQLITE_OK ∧
      ((⟨some 0, 1, 2, false⟩ : Statement).m_needReset = true →
        (⟨some 0, 1, 2, false⟩ : Statement).m_stmt ≠ 0) ∧
      (Statement.bind Engine.quiet ⟨some 0, 1, 2, false⟩ 4 (BindArg.blob 7 3) 21).out =
        .threw (Exception.ofStatus Engine.quiet 1 21) ∧
      (Statement.bind Engine.quiet ⟨some 0, 1, 2, false⟩ 4 (BindArg.blob 7 3) 21).self =
        ⟨some 0, 1, 2, false⟩ ∧
      ((⟨some 0, 1, 2, false⟩ : Statement).m_needReset = false →
        (Statement.bind Engine.quiet ⟨some 0, 1, 2, false⟩ 4 (BindArg.blob 7 3) 21).self =
          ⟨some 0, 1, 2, false⟩) ∧
      (Statement.bind Engine.quiet ⟨some 0, 1, 2, false⟩ 4 (BindArg.blob 7 3) 21).calls =
        (if (⟨some 0, 1, 2, false⟩ : Statement).m_needReset = true
          then [Call.sqlite3_reset 2] else []) ++ [BindArg.call 2 4 (BindArg.blob 7 3)]) :=
  ⟨⟨by decide, by decide,
      failed_bind_state Engine.quiet ⟨some 0, 1, 2, true⟩ 1 BindArg.null 25 (by decide)
        (by decide)⟩,
    ⟨by decide, by decide,
      failed_bind_state Engine.quiet ⟨some 0, 1, 2, false⟩ 4 (BindArg.blob 7 3) 21 (by decide)
        (by decide)⟩⟩

/-- C4 as stated fails: a Stepped Statement (`m_needReset == true`) whose `Bind<int>` is
rejected by the engine with status 25 throws, and its `m_needReset` is false afterwards. -/
theorem failed_bind_changes_needReset :
    (Statement.bind Engine.quiet ⟨some 0, 1, 2, true⟩ 1 (BindArg.value (BindValue.int 5)) 25).out =
        .threw ⟨25, ""⟩ ∧
      (Statement.bind Engine.quiet ⟨some 0, 1, 2, true⟩ 1
        (BindArg.value (BindValue.int 5)) 25).self.m_needReset = false ∧
      (Statement.bind Engine.quiet ⟨some 0, 1, 2, true⟩ 1
        (BindArg.value (BindValue.int 5)) 25).self ≠ ⟨some 0, 1, 2, true⟩ ∧
      (Statement.bind Engine.quiet ⟨some 0, 1, 2, true⟩ 1
        (BindArg.value (BindValue.int 5)) 25).calls =
          [Call.sqlite3_reset 2, Call.sqlite3_bind_int 2 1 5] := by
  decide

/-- C5, amended: in every state reached by constructing a Statement from a compiled handle and
then applying any sequence of `Next()`, bind and assignment operations without
copy-construction (the Statement stays the only handle of its native statement, an assignment
can only be a self-assignment), the `m_needReset` flag of every Statement value is true if and
only if the native statement it refers to has been stepped at least once since that native
statement was last reset, or since it was compiled if it was never reset. -/
theorem needReset_tracks_steps (E : Engine) (db stmt : Nat) (ops : List SOp) (w : SWorld)
    (st : Statement) (hops : ops.any SOp.isCopy = false)
    (hrun : srun E db stmt ops = .ok w) (hst : st ∈ w.stmts) :
    st.m_needReset = true ↔ steppedSinceReset w.log st.m_stmt = true := by
  have hops' : ∀ op ∈ ops, op.isCopy = false := fun op hop => by
    simpa using List.any_eq_false.mp hops op hop
  obtain ⟨st', hst', hstmt, hflag, _⟩ := srun_single E db stmt ops w hops' hrun
  rw [hst'] at hst
  have hst_eq : st = st' := by simpa using hst
  subst hst_eq
  rw [hstmt, ← hflag]

theorem needReset_tracks_steps_witness :
    [SOp.next 0 100, SOp.bind 0 1 (BindArg.value (BindValue.int 5)) 0, SOp.assign 0 0,
        SOp.next 0 101].any SOp.isCopy = false ∧
      srun Engine.quiet 1 2 [SOp.next 0 100, SOp.bind 0 1 (BindArg.value (BindValue.int 5)) 0,
          SOp.assign 0 0, SOp.next 0 101] =
        .ok ⟨[some 1], [⟨some 0, 1, 2, true⟩],
          [Call.sqlite3_step 2, Call.sqlite3_reset 2, Call.sqlite3_bind_int 2 1 5,
            Call.sqlite3_step 2]⟩ ∧
      (⟨some 0, 1, 2, true⟩ : Statement) ∈ [(⟨some 0, 1, 2, true⟩ : Statement)] ∧
      ((⟨some 0, 1, 2, true⟩ : Statement).m_needReset = true ↔
        steppedSinceReset [Call.sqlite3_step 2, Call.sqlite3_reset 2,
          Call.sqlite3_bind_int 2 1 5, Call.sqlite3_step 2]
          (⟨some 0, 1, 2, true⟩ : Statement).m_stmt = true) :=
  ⟨by decide, by decide, by decide,
    needReset_tracks_steps Engine.quiet 1 2
      [SOp.next 0 100, SOp.bind 0 1 (BindArg.value (BindValue.int 5)) 0, SOp.assign 0 0,
        SOp.next 0 101]
      ⟨[some 1], [⟨some 0, 1, 2, true⟩],
        [Call.sqlite3_step 2, Call.sqlite3_reset 2, Call.sqlite3_bind_int 2 1 5,
          Call.sqlite3_step 2]⟩
      ⟨some 0, 1, 2, true⟩ (by decide) (by decide) (by decide)⟩

/-- C5 as stated fails.  Construct a Statement on the compiled handle `2`, call `Next()` on it
(a row), then copy-construct a second Statement from it: the copy is a live Statement value
whose `m_needReset` is false although the native statement `2` it refers to has been stepped
and never reset.  The same happens when the copy is made first and `Next()` is then called on
the original: the flag lives in each handle, the step is made on the native statement they
share. -/
theorem copy_forgets_the_step :
    (srun Engine.quiet 1 2 [SOp.next 0 100, SOp.copy 0] =
        .ok ⟨[some 2], [⟨some 0, 1, 2, true⟩, ⟨some 0, 1, 2, false⟩], [Call.sqlite3_step 2]⟩ ∧
      srun Engine.quiet 1 2 [SOp.copy 0, SOp.next 0 100] =
        .ok ⟨[some 2], [⟨some 0, 1, 2, true⟩, ⟨some 0, 1, 2, false⟩], [Call.sqlite3_step 2]⟩) ∧
      ¬ ((⟨some 0, 1, 2, false⟩ : Statement).m_needReset = true ↔
        steppedSinceReset [Call.sqlite3_step 2] (⟨some 0, 1, 2, false⟩ : Statement).m_stmt =
          true) := by
  decide
/-! ### `RefCount`, `Blob`, `Db`: results -/

/-- C6, amended: `IncRef()` on a handle that holds no counter allocates a cell and leaves the
count `1`; `IncRef()` on a handle whose counter holds `n` keeps the same counter and stores
`n + 1` when `n < 2 ^ 32 - 1` and `0` when `n = 2 ^ 32 - 1` (the `unsigned` wraps around), and
every other handle sharing that counter reads the same new value; `DecRef()` on a counter
holding `n >= 1` stores and returns `n - 1`, and when that is `0` the cell is deleted and the
handle's pointer is cleared (on a counter holding `0` it wraps to `2 ^ 32 - 1`). -/
theorem acquire_release_contract (cs : Counters) (a n : Nat) (other : RefCount)
    (hcell : cs[a]? = some (some n)) (hn : n < UINT_MOD) (hother : other.m_refCount = some a) :
    RefCount.IncRef cs ⟨none⟩ = .ok (cs ++ [some 1], ⟨some cs.length⟩) ∧
      RefCount.value (cs ++ [some 1]) ⟨some cs.length⟩ = some 1 ∧
      RefCount.IncRef cs ⟨some a⟩ =
        .ok (cs.set a (some (if n + 1 < UINT_MOD then n + 1 else 0)), ⟨some a⟩) ∧
      RefCount.value (cs.set a (some (if n + 1 < UINT_MOD then n + 1 else 0))) other =
        some (if n + 1 < UINT_MOD then n + 1 else 0) ∧
      RefCount.DecRef cs ⟨some a⟩ =
        if n = 1 then .ok (cs.set a none, ⟨none⟩, 0)
        else .ok (cs.set a (some (if n = 0 then UINT_MOD - 1 else n - 1)), ⟨some a⟩,
          if n = 0 then UINT_MOD - 1 else n - 1) := by
  have hlt := lt_of_getElem?_eq_some hcell
  have hinc : (n + 1) % UINT_MOD = if n + 1 < UINT_MOD then n + 1 else 0 := by
    unfold UINT_MOD at *
    split <;> omega
  have hdec : (n + UINT_MOD - 1) % UINT_MOD = if n = 0 then UINT_MOD - 1 else n - 1 := by
    unfold UINT_MOD at *
    split <;> omega
  refine ⟨IncRef_null cs, by simp [RefCount.value], ?_, ?_, ?_⟩
  · rw [IncRef_held cs a n hcell, hinc]
  · simp [RefCount.value, hother, hlt]
  · rw [DecRef_held cs a n hcell, hdec]
    by_cases h1 : n = 1
    · subst h1
      simp
    · have h0 : (if n = 0 then UINT_MOD - 1 else n - 1) ≠ 0 := by
        unfold UINT_MOD
        split <;> omega
      simp [h1, h0]

theorem acquire_release_contract_witness :
    ([some 2, none, some 7] : Counters)[0]? = some (some 2) ∧ 2 < UINT_MOD ∧
      (⟨some 0⟩ : RefCount).m_refCount = some 0 ∧
      (RefCount.IncRef [some 2, none, some 7] ⟨none⟩ =
          .ok ([some 2, none, some 7] ++ [some 1], ⟨some [some 2, none, some 7].length⟩) ∧
        RefCount.value ([some 2, none, some 7] ++ [some 1])
          ⟨some [some 2, none, some 7].length⟩ = some 1 ∧
        RefCount.IncRef [some 2, none, some 7] ⟨some 0⟩ =
          .ok ([some 2, none, some 7].set 0 (some (if 2 + 1 < UINT_MOD then 2 + 1 else 0)),
            ⟨some 0⟩) ∧
        RefCount.value
            ([some 2, none, some 7].set 0 (some (if 2 + 1 < UINT_MOD then 2 + 1 else 0)))
            ⟨some 0⟩ = some (if 2 + 1 < UINT_MOD then 2 + 1 else 0) ∧
        RefCount.DecRef [some 2, none, some 7] ⟨some 0⟩ =
          if 2 = 1 then .ok ([some 2, none, some 7].set 0 none, ⟨none⟩, 0)
          else .ok ([some 2, none, some 7].set 0 (some (if 2 = 0 then UINT_MOD - 1 else 2 - 1)),
            ⟨some 0⟩, if 2 = 0 then UINT_MOD - 1 else 2 - 1)) :=
  ⟨by decide, by decide, rfl,
    acquire_release_contract [some 2, none, some 7] 0 2 ⟨some 0⟩ (by decide) (by decide) rfl⟩

/-- C6 as stated fails: `IncRef()` on a handle whose counter holds `n = 2 ^ 32 - 1` leaves the
counter at `0`, not at `n + 1`. -/
theorem IncRef_wraps_to_zero :
    RefCount.IncRef [some 4294967295] ⟨some 0⟩ = .ok ([some 0], ⟨some 0⟩) ∧
      RefCount.value [some 0] ⟨some 0⟩ ≠ some (4294967295 + 1) := by
  decide

/-- What `Blob(data, size)` does when `data` points at the bytes `src` (followed by anything)
and `size` is their number: a new array holding `src` at a fresh address, and a new counter
holding `1`. -/
theorem Blob.ctor_eval (H : Heap) (data : Nat) (size : Int) (src rest : List Nat)
    (hsrc : src = [] ∨ H.mem[data]? = some (some (src ++ rest)))
    (hsize : size = (src.length : Int)) :
    Blob.ctor H data size =
      .ok (⟨H.counters ++ [some 1], H.mem ++ [some src]⟩,
        ⟨some H.counters.length, H.mem.length, size⟩) := by
  have hnn : ¬ size < 0 := by omega
  have hto : size.toNat = src.length := by omega
  have hread : Mem.read H.mem data size.toNat = some src := by
    rw [hto]
    unfold Mem.read
    by_cases h0 : src.length = 0
    · have : src = [] := List.length_eq_zero.mp h0
      simp [this]
    · rcases hsrc with he | hm
      · exact absurd (by simp [he]) h0
      · simp [h0, hm]
  simp only [Blob.ctor, hnn, if_false, hread, RefCount.ctor, IncRef_null]

/-- The deep-copy half of C7, which the code meets: for bytes `src` at address `data`,
`Blob(data, n)` with `n` their number reports size `n`, points at an array that did not exist
before (so it is not `data`), holds `src`, and still holds `src` after the memory at `data` is
overwritten or deleted. -/
theorem Blob.ctor_deep_copy (H : Heap) (data : Nat) (src rest : List Nat)
    (later : Option (List Nat)) (hsrc : H.mem[data]? = some (some (src ++ rest))) :
    ∃ H1 b, Blob.ctor H data (src.length : Int) = .ok (H1, b) ∧
      b.GetSize = (src.length : Int) ∧ b.GetData ≠ data ∧ H.mem[b.GetData]? = none ∧
      Blob.bytes H1 b = some src ∧
      Blob.bytes ⟨H1.counters, H1.mem.set data later⟩ b = some src := by
  have hlt := lt_of_getElem?_eq_some hsrc
  refine ⟨_, _, Blob.ctor_eval H data _ src rest (Or.inr hsrc) rfl, rfl, ?_, ?_, ?_, ?_⟩
  · show H.mem.length ≠ data
    omega
  · show H.mem[H.mem.length]? = none
    simp
  · simp [Blob.bytes, Blob.GetData, Blob.GetSize]
  · have hne : data ≠ H.mem.length := by omega
    simp [Blob.bytes, Blob.GetData, Blob.GetSize, List.getElem?_set_ne hne]

/-- C7 at its failing input: the bytes `10, 20, 30` at address `0`; `Blob a(data, 3)` makes the
array at address `1` and counter `0`; `Blob b(a)` has the same size and the same array but a
counter of its own (`1`), because the copy constructor does not name `RefCount(x)`; destroying
`a` takes counter `0` to zero and deletes the array while `b` is alive, so that `b` has no bytes
left to show; destroying `b` then deletes the same array a second time. -/
theorem blob_copy_does_not_share_the_counter :
    Blob.ctor ⟨[], [some [10, 20, 30]]⟩ 0 3 =
        .ok (⟨[some 1], [some [10, 20, 30], some [10, 20, 30]]⟩, ⟨some 0, 1, 3⟩) ∧
      Blob.copyCtor ⟨[some 1], [some [10, 20, 30], some [10, 20, 30]]⟩ ⟨some 0, 1, 3⟩ =
        .ok (⟨[some 1, some 1], [some [10, 20, 30], some [10, 20, 30]]⟩, ⟨some 1, 1, 3⟩) ∧
      Blob.dtor ⟨[some 1, some 1], [some [10, 20, 30], some [10, 20, 30]]⟩ ⟨some 0, 1, 3⟩ =
        .ok ⟨[none, some 1], [some [10, 20, 30], none]⟩ ∧
      Blob.bytes ⟨[none, some 1], [some [10, 20, 30], none]⟩ ⟨some 1, 1, 3⟩ = none ∧
      Blob.dtor ⟨[none, some 1], [some [10, 20, 30], none]⟩ ⟨some 1, 1, 3⟩ =
        .abort .badPointer := by
  decide

/-- C8: every engine-facing operation that gets a status `c` other than `SQLITE_OK` from its
native call (`Db::Query`, each bind, `Db::Db(fileName)`), and `Next()` for a status `cn` that is
none of `SQLITE_OK`, `SQLITE_ROW`, `SQLITE_DONE`, throws `Exception(db, status)`, whose
`GetErrorCode()` is that status and whose `GetErrorMsg()` is what `sqlite3_errmsg(db)` answers at
that moment; `Db::Query` throws if and only if the compile status `c2` is not `SQLITE_OK`, and
with `SQLITE_OK` it returns a Statement on the compiled handle with `m_needReset == false`. -/
theorem engine_errors_carry_status (E : Engine) (cs : Counters) (d : Db) (st : Statement)
    (i : Int) (arg : BindArg) (stmt handle dbh : Nat) (c cn c2 : Int)
    (hc : c ≠ SQLITE_OK) (hn0 : cn ≠ SQLITE_OK) (hn1 : cn ≠ SQLITE_ROW)
    (hn2 : cn ≠ SQLITE_DONE) (hstmt : st.m_stmt ≠ 0) :
    Db.Query E cs d c stmt = .threw (Exception.ofStatus E d.m_db c) ∧
      (st.bind E i arg c).out = .threw (Exception.ofStatus E st.m_db c) ∧
      (st.Next E cn).out = .threw (Exception.ofStatus E st.m_db cn) ∧
      Db.ctor E cs c handle = .threw (Exception.ofStatus E handle c) ∧
      (Exception.ofStatus E dbh c).GetErrorCode = c ∧
      (Exception.ofStatus E dbh c).GetErrorMsg = E.errmsg dbh ∧
      ((∃ e, Db.Query E cs d c2 stmt = .threw e) ↔ c2 ≠ SQLITE_OK) ∧
      Db.Query E cs d SQLITE_OK stmt =
        .ok (cs ++ [some 1], ⟨some cs.length, d.m_db, stmt, false⟩) := by
  have hq : ∀ x : Int, x ≠ SQLITE_OK →
      Db.Query E cs d x stmt = .threw (Exception.ofStatus E d.m_db x) := by
    intro x hx
    simp [Db.Query, CHECK, hx]
  have hok : Db.Query E cs d SQLITE_OK stmt =
      .ok (cs ++ [some 1], ⟨some cs.length, d.m_db, stmt, false⟩) := by
    simp [Db.Query, CHECK, Statement.ctor, RefCount.ctor, IncRef_null]
  refine ⟨hq c hc, (failed_bind_state_aux E st i arg c hc (fun _ => hstmt)), ?_, ?_, rfl, rfl,
    ?_, hok⟩
  · rw [(Statement.Next_outcome E st cn hstmt).2]
    simp [hn0, hn1, hn2]
  · simp [Db.ctor, CHECK, hc]
  · constructor
    · rintro ⟨e, he⟩ h2
      rw [h2, hok] at he
      exact Outcome.noConfusion he
    · intro h2
      exact ⟨_, hq c2 h2⟩

theorem engine_errors_carry_status_witness :
    (14 : Int) ≠ SQLITE_OK ∧ (5 : Int) ≠ SQLITE_OK ∧ (5 : Int) ≠ SQLITE_ROW ∧
      (5 : Int) ≠ SQLITE_DONE ∧ (⟨some 0, 1, 2, true⟩ : Statement).m_stmt ≠ 0 ∧
      (Db.Query Engine.quiet [some 1] ⟨some 0, 1⟩ 14 0 =
          .threw (Exception.ofStatus Engine.quiet (⟨some 0, 1⟩ : Db).m_db 14) ∧
        (Statement.bind Engine.quiet ⟨some 0, 1, 2, true⟩ 1 BindArg.null 14).out =
          .threw (Exception.ofStatus Engine.quiet (⟨some 0, 1, 2, true⟩ : Statement).m_db 14) ∧
        (Statement.Next Engine.quiet ⟨some 0, 1, 2, true⟩ 5).out =
          .threw (Exception.ofStatus Engine.quiet (⟨some 0, 1, 2, true⟩ : Statement).m_db 5) ∧
        Db.ctor Engine.quiet [some 1] 14 7 = .threw (Exception.ofStatus Engine.quiet 7 14) ∧
        (Exception.ofStatus Engine.quiet 1 14).GetErrorCode = 14 ∧
        (Exception.ofStatus Engine.quiet 1 14).GetErrorMsg = Engine.quiet.errmsg 1 ∧
        ((∃ e, Db.Query Engine.quiet [some 1] ⟨some 0, 1⟩ 1 0 = .threw e) ↔
          (1 : Int) ≠ SQLITE_OK) ∧
        Db.Query Engine.quiet [some 1] ⟨some 0, 1⟩ SQLITE_OK 0 =
          .ok ([some 1] ++ [some 1],
            ⟨some [some 1].length, (⟨some 0, 1⟩ : Db).m_db, 0, false⟩)) :=
  ⟨by decide, by decide, by decide, by decide, by decide,
    engine_errors_carry_status Engine.quiet [some 1] ⟨some 0, 1⟩ ⟨some 0, 1, 2, true⟩ 1
      BindArg.null 0 7 1 14 5 1 (by decide) (by decide) (by decide) (by decide) (by decide)⟩

/-- C9: for a Statement with a non-null `m_stmt` positioned on a row whose field `i` the engine
reports as the bytes `bytes` (`sqlite3_column_bytes` is their number and, unless there are none,
`sqlite3_column_blob` points at them), `GetField(i)` leaves the Statement as it was, and
`GetField(i).GetBlob()` returns a Blob whose `GetSize()` is the engine's byte count and whose
`GetData()[0 .. size)` is `bytes`. -/
theorem blob_column_round_trip (E : Engine) (H : Heap) (st : Statement) (i : Int)
    (bytes rest : List Nat) (hstmt : st.m_stmt ≠ 0)
    (hlen : E.column_bytes st.m_stmt i = (bytes.length : Int))
    (hmem : bytes = [] ∨ H.mem[E.column_blob st.m_stmt i]? = some (some (bytes ++ rest))) :
    (st.GetField i).1 = st ∧
      (st.GetField i).2.GetBlob E H =
        .ok (⟨H.counters ++ [some 1], H.mem ++ [some bytes]⟩,
          ⟨some H.counters.length, H.mem.length, E.column_bytes st.m_stmt i⟩) ∧
      (⟨some H.counters.length, H.mem.length, E.column_bytes st.m_stmt i⟩ : Blob).GetSize =
        E.column_bytes st.m_stmt i ∧
      Blob.bytes ⟨H.counters ++ [some 1], H.mem ++ [some bytes]⟩
        ⟨some H.counters.length, H.mem.length, E.column_bytes st.m_stmt i⟩ = some bytes := by
  refine ⟨rfl, ?_, rfl, ?_⟩
  · simp only [Statement.GetField, Convertor.GetBlob, hstmt, if_false]
    exact Blob.ctor_eval H _ _ bytes rest hmem hlen
  · simp [Blob.bytes, Blob.GetData, Blob.GetSize, hlen]

theorem blob_column_round_trip_witness :
    (⟨some 0, 1, 2, true⟩ : Statement).m_stmt ≠ 0 ∧
      (3 : Int) = (([0, 255, 122] : List Nat).length : Int) ∧
      ([some [0, 255, 122]] : Mem)[0]? = some (some ([0, 255, 122] ++ [])) ∧
      (Statement.GetField ⟨some 0, 1, 2, true⟩ 0).1 = ⟨some 0, 1, 2, true⟩ ∧
      Convertor.GetBlob ⟨fun _ => "", fun _ _ => 0, fun _ _ => 3⟩ ⟨[some 1], [some [0, 255, 122]]⟩
          (Statement.GetField ⟨some 0, 1, 2, true⟩ 0).2 =
        .ok (⟨[some 1, some 1], [some [0, 255, 122], some [0, 255, 122]]⟩, ⟨some 1, 1, 3⟩) ∧
      (⟨some 1, 1, 3⟩ : Blob).GetSize = 3 ∧
      Blob.bytes ⟨[some 1, some 1], [some [0, 255, 122], some [0, 255, 122]]⟩ ⟨some 1, 1, 3⟩ =
        some [0, 255, 122] :=
  ⟨by decide, by decide, by decide,
    blob_column_round_trip ⟨fun _ => "", fun _ _ => 0, fun _ _ => 3⟩
      ⟨[some 1], [some [0, 255, 122]]⟩ ⟨some 0, 1, 2, true⟩ 0 [0, 255, 122] [] (by decide)
      (by decide) (Or.inr (by decide))⟩
/-! ### The lifetime machine is what the three classes do

The special member functions of `Statement`, `Db` and `Blob`, with the members that play no part
in the lifetime forgotten, are the operations of `Handle` at the matching `Kind`. -/

theorem statement_ctor_toHandle (cs : Counters) (db stmt : Nat) :
    (Statement.ctor cs db stmt).map (fun p => (p.1, p.2.toHandle)) = Handle.ctor cs stmt := by
  simp [Statement.ctor, Handle.ctor, RefCount.ctor, IncRef_null, Outcome.map,
    Statement.toHandle]

theorem statement_copyCtor_toHandle (cs : Counters) (x : Statement) :
    (Statement.copyCtor cs x).map (fun p => (p.1, p.2.toHandle)) =
      Handle.copyCtor Kind.statement cs x.toHandle := by
  unfold Statement.copyCtor Handle.copyCtor Kind.copyBase Statement.toHandle
  cases RefCount.IncRef cs (RefCount.copyCtor ⟨x.m_refCount⟩) <;> rfl

theorem statement_assign_toHandle (cs : Counters) (self x : Statement) :
    (Statement.assign cs self x).map (fun p => (p.1, p.2.toHandle)) =
      Handle.assign cs self.toHandle x.toHandle := by
  unfold Statement.assign Handle.assign Statement.toHandle
  cases RefCount.IncRef cs (RefCount.assign ⟨self.m_refCount⟩ ⟨x.m_refCount⟩) <;> rfl

theorem statement_dtor_toHandle (cs : Counters) (self : Statement) :
    Statement.dtor cs self = Handle.dtor Kind.statement cs self.toHandle := by
  unfold Statement.dtor Handle.dtor Statement.toHandle
  cases RefCount.DecRef cs ⟨self.m_refCount⟩ <;> rfl

theorem db_ctor_toHandle (E : Engine) (cs : Counters) (handle : Nat) :
    (Db.ctor E cs SQLITE_OK handle).map (fun p => (p.1, p.2.toHandle)) =
      Handle.ctor cs handle := by
  simp [Db.ctor, CHECK, Handle.ctor, RefCount.ctor, IncRef_null, Outcome.map, Db.toHandle]

theorem db_copyCtor_toHandle (cs : Counters) (x : Db) :
    (Db.copyCtor cs x).map (fun p => (p.1, p.2.toHandle)) =
      Handle.copyCtor Kind.db cs x.toHandle := by
  unfold Db.copyCtor Handle.copyCtor Kind.copyBase Db.toHandle
  cases RefCount.IncRef cs (RefCount.copyCtor ⟨x.m_refCount⟩) <;> rfl

theorem db_assign_toHandle (cs : Counters) (self x : Db) :
    (Db.assign cs self x).map (fun p => (p.1, p.2.toHandle)) =
      Handle.assign cs self.toHandle x.toHandle := by
  unfold Db.assign Handle.assign Db.toHandle
  cases RefCount.IncRef cs (RefCount.assign ⟨self.m_refCount⟩ ⟨x.m_refCount⟩) <;> rfl

theorem db_dtor_toHandle (cs : Counters) (self : Db) :
    Db.dtor cs self = Handle.dtor Kind.db cs self.toHandle := by
  unfold Db.dtor Handle.dtor Db.toHandle
  cases RefCount.DecRef cs ⟨self.m_refCount⟩ <;> rfl

theorem blob_copyCtor_toHandle (H : Heap) (x : Blob) :
    (Blob.copyCtor H x).map (fun p => (p.1.counters, p.2.toHandle)) =
      Handle.copyCtor Kind.blob H.counters x.toHandle := by
  unfold Blob.copyCtor Handle.copyCtor Kind.copyBase Blob.toHandle
  cases RefCount.IncRef H.counters RefCount.ctor <;> rfl

theorem blob_assign_toHandle (H : Heap) (self x : Blob) :
    (Blob.assign H self x).map (fun p => (p.1.counters, p.2.toHandle)) =
      Handle.assign H.counters self.toHandle x.toHandle := by
  unfold Blob.assign Handle.assign Blob.toHandle
  cases RefCount.IncRef H.counters (RefCount.assign ⟨self.m_refCount⟩ ⟨x.m_refCount⟩) <;> rfl

/-- The destructor of a `Blob` whose array is still allocated changes the counters as
`Handle.dtor` does, and deletes the array exactly when `Handle.dtor` makes its release call. -/
theorem blob_dtor_toHandle (H : Heap) (self : Blob) (bytes : List Nat)
    (hdata : H.mem[self.m_data]? = some (some bytes)) :
    (Blob.dtor H self).map (fun H1 => (H1.counters, H1.mem)) =
      (Handle.dtor Kind.blob H.counters self.toHandle).map
        (fun p => (p.1, if p.2 = [] then H.mem else H.mem.set self.m_data none)) := by
  unfold Blob.dtor Handle.dtor Blob.toHandle
  cases hdec : RefCount.DecRef H.counters ⟨self.m_refCount⟩ with
  | ok p =>
    obtain ⟨cs1, r, value⟩ := p
    by_cases hv : value = 0
    · simp [hv, Mem.deleteArr, hdata, Outcome.map]
    · simp [hv, Outcome.map]
  | threw e => rfl
  | abort f => rfl

end sqdb
